import Mathlib

/-!
Shallow embedding of the opencode-sync-plugin sources and verification of the
specification claims against them.

Embedded code:
- the live event pipeline of src/index.ts (message reconstruction buffers,
  debounced message sync, session statistics, dedup sets);
- the bulk sync path of src/cli.ts (per-session message aggregation, sync mode
  selection, per-session submit loop);
- the tracking-record helpers of src/config.ts at their interface.

Conventions: JavaScript Maps become association lists with set-replaces-key
semantics, Sets become lists queried by membership, numbers that carry money
become rationals, missing/undefined JSON fields become Option, and the
JavaScript truthiness tests of the source (empty string and zero are falsy)
are reproduced where the source relies on them.
-/

/-- Role of a message: the codomain of inferRole in src/index.ts. -/
inductive Role where
  | user
  | assistant
deriving DecidableEq, Repr

/-- String form of a role as it appears in a submit-message payload. -/
def Role.str : Role → String
  | .user => "user"
  | .assistant => "assistant"

/-- Apostrophe character (U+0027), occurring in several inferRole patterns. -/
def apos : String := String.singleton (Char.ofNat 39)

/-- Backtick character (U+0060), the fence character of the code-block
pattern. -/
def backtick : Char := Char.ofNat 96

/-- Three backticks, the code fence of the second assistant pattern. -/
def codeFence : List Char := [backtick, backtick, backtick]

/-- JavaScript regex whitespace class: the code points accepted by the
whitespace parts of the inferRole regexes. -/
def isJsSpace (c : Char) : Bool :=
  c = ' ' || c.val = 9 || c.val = 10 || c.val = 13 ||
  c.val = 11 || c.val = 12 || c.val = 0xa0 || c.val = 0x1680 ||
  (0x2000 ≤ c.val && c.val ≤ 0x200a) || c.val = 0x2028 || c.val = 0x2029 ||
  c.val = 0x202f || c.val = 0x205f || c.val = 0x3000 || c.val = 0xfeff

/-- Case-insensitive prefix test: embedding of the anchored case-insensitive
alternation regexes of inferRole (ASCII case folding). -/
def startsWithCI (pat s : String) : Bool :=
  (pat.data.map Char.toLower).isPrefixOf (s.data.map Char.toLower)

/-- Occurrence of the character sequence p anywhere in l (unanchored regex
substring search). -/
def containsSeq (p : List Char) : List Char → Bool
  | [] => p.isEmpty
  | c :: cs => p.isPrefixOf (c :: cs) || containsSeq p cs

/-- Embedding of the fenced-code-block pattern of inferRole: three backticks,
at least one arbitrary character, then three backticks, anywhere in the
text.  A match starting at a given position needs the closing fence to start
at least four characters later. -/
def hasCodeBlockChars : List Char → Bool
  | [] => false
  | c :: cs =>
    (codeFence.isPrefixOf (c :: cs) && containsSeq codeFence ((c :: cs).drop 4)) ||
    hasCodeBlockChars cs

/-- Tail of the bold pattern after the run of non-asterisk characters: two
asterisks close the bold span; a single asterisk breaks the match. -/
def boldClose : List Char → Bool
  | '*' :: '*' :: _ => true
  | '*' :: _ => false
  | _ :: rest => boldClose rest
  | [] => false

/-- After a bold opener: at least one non-asterisk character, then two
asterisks. -/
def boldTail : List Char → Bool
  | [] => false
  | c :: rest => if c = '*' then false else boldClose rest

/-- Embedding of the bold-markdown pattern of inferRole: two asterisks, one or
more non-asterisk characters, two asterisks, anywhere in the text. -/
def hasBoldPairChars : List Char → Bool
  | [] => false
  | c :: cs =>
    (['*', '*'].isPrefixOf (c :: cs) && boldTail ((c :: cs).drop 2)) ||
    hasBoldPairChars cs

/-- Tail of the yes/no pattern after the matched opener: an optional comma,
one or more whitespace characters, then one of the second-group words.  The
input is already lower-cased. -/
def yesNoTail (r : List Char) : Bool :=
  let r' := match r with
    | ',' :: rest => rest
    | _ => r
  match r' with
  | c :: rest =>
    if isJsSpace c then
      let r2 := rest.dropWhile isJsSpace
      ["i".data, "you".data, "we".data, "this".data, "that".data].any
        (fun w => w.isPrefixOf r2)
    else false
  | [] => false

/-- Embedding of the yes/no answer pattern of inferRole: the text starts with
yes or no (case-insensitive), an optional comma, whitespace, then a pronoun or
demonstrative. -/
def yesNoMatch (s : String) : Bool :=
  let l := s.data.map Char.toLower
  if "yes".data.isPrefixOf l then yesNoTail (l.drop 3)
  else if "no".data.isPrefixOf l then yesNoTail (l.drop 2)
  else false

/-- Embedding of the numbered-bold-list pattern of inferRole: one or more
digits, a dot, whitespace, then a bold opener, at the start of the text. -/
def numberedBoldChars (l : List Char) : Bool :=
  if (l.takeWhile Char.isDigit).isEmpty then false
  else
    match l.dropWhile Char.isDigit with
    | '.' :: rest =>
      if (rest.takeWhile isJsSpace).isEmpty then false
      else
        match rest.dropWhile isJsSpace with
        | '*' :: '*' :: _ => true
        | _ => false
    | _ => false

/-- Assistant-leaning opener phrases of the first assistant pattern. -/
def assistantOpeners : List String :=
  ["I" ++ apos ++ "ll", "Let me", "Here" ++ apos ++ "s", "I can",
   "I" ++ apos ++ "ve", "I" ++ apos ++ "m going to", "I will",
   "Sure", "Certainly", "Of course"]

/-- Imperative and request openers of the second user pattern. -/
def userOpeners : List String :=
  ["create", "fix", "add", "update", "show", "make", "build", "implement",
   "write", "delete", "remove", "change", "modify", "help", "can you",
   "please", "I want", "I need"]

/-- First assistant pattern: explanatory opener phrases. -/
def matchesAssistantOpener (s : String) : Bool :=
  assistantOpeners.any (fun p => startsWithCI p s)

/-- Second assistant pattern: a fenced code block. -/
def hasCodeBlock (s : String) : Bool := hasCodeBlockChars s.data

/-- Fourth assistant pattern: bold markdown emphasis. -/
def hasBoldPair (s : String) : Bool := hasBoldPairChars s.data

/-- Fifth assistant pattern: a numbered bold list item. -/
def numberedBold (s : String) : Bool := numberedBoldChars s.data

/-- First user pattern: the text ends with a question mark. -/
def endsWithQuestion (s : String) : Bool := s.data.getLast? = some '?'

/-- Second user pattern: imperative or request openers. -/
def matchesUserOpener (s : String) : Bool :=
  userOpeners.any (fun p => startsWithCI p s)

/-- Third user pattern: the text starts with an at-sign reference. -/
def startsWithAt (s : String) : Bool := s.data.head? = some '@'

/-- Assistant-leaning patterns of inferRole, in source order. -/
def assistantPatterns : List (String → Bool) :=
  [matchesAssistantOpener, hasCodeBlock, yesNoMatch, hasBoldPair, numberedBold]

/-- User-leaning patterns of inferRole, in source order. -/
def userPatterns : List (String → Bool) :=
  [endsWithQuestion, matchesUserOpener, startsWithAt]

/-- Embedding of inferRole from src/index.ts: test the assistant patterns in
order, then the user patterns, then fall back to the length threshold. -/
def inferRole (textContent : String) : Role :=
  if assistantPatterns.any (fun p => p textContent) then .assistant
  else if userPatterns.any (fun p => p textContent) then .user
  else if textContent.data.length > 500 then .assistant
  else .user

/-! ## Live pipeline data model (src/index.ts) -/

/-- Stored configuration (src/config.ts): Convex URL and API key.  An absent
file is `none` at the state level; empty strings reproduce the falsy checks of
the source. -/
structure Config where
  convexUrl : String
  apiKey : String
deriving DecidableEq, Repr

/-- Truthiness check performed by doSyncMessage and doSyncSession on the
stored configuration. -/
def configOk : Option Config → Bool
  | none => false
  | some c => !(c.apiKey = "") && !(c.convexUrl = "")

/-- Content of a buffered tool part: the part id, tool name, input arguments
and status picked out of a message.part.updated tool event.  The arguments
value stands for the opaque JSON payload of part.state.input. -/
structure ToolContent where
  partId : Option String
  name : Option String
  args : Option String
  status : Option String
deriving DecidableEq, Repr

/-- Buffered structured part: a type tag and a content record. -/
structure ToolPart where
  ptype : String
  content : ToolContent
deriving DecidableEq, Repr

/-- Token counts of a message.updated payload.  cacheWrite/cacheRead model
tokens.cache.write/read; cacheCreation/cacheReadLegacy model the historical
flat names tokens.cache_creation/cache_read. -/
structure MsgTokens where
  input : Option Nat
  output : Option Nat
  cacheWrite : Option Nat
  cacheRead : Option Nat
  cacheCreation : Option Nat
  cacheReadLegacy : Option Nat
deriving DecidableEq, Repr

/-- Timestamps of a message.updated payload. -/
structure MsgTime where
  created : Option Int
  completed : Option Int
deriving DecidableEq, Repr

/-- Payload of a message.updated event (the info object).  An absent field is
the empty string for the required identity fields and none for the rest;
modelNestedID models info.model.modelID. -/
structure MsgInfo where
  id : String
  sessionID : String
  role : String
  modelID : Option String
  modelNestedID : Option String
  tokens : Option MsgTokens
  cost : Option Rat
  time : Option MsgTime
deriving DecidableEq, Repr

/-- Empty info object stored when a part event arrives before any metadata. -/
def MsgInfo.empty : MsgInfo :=
  { id := "", sessionID := "", role := "", modelID := none,
    modelNestedID := none, tokens := none, cost := none, time := none }

/-- Buffered message metadata: the messageMetadata map entry of src/index.ts. -/
structure Metadata where
  role : String
  sessionId : String
  info : MsgInfo
deriving DecidableEq, Repr

/-- Payload of a session lifecycle event after normalization (the sessionInfo
object of src/index.ts).  Fields carry exactly what doSyncSession reads;
modelStr/providerStr model session.model/session.provider when those are plain
strings, modelNestedID/providerNestedID the nested variants. -/
structure SessionInfo where
  id : String
  title : Option String
  pathCwd : Option String
  cwd : Option String
  directory : Option String
  modelID : Option String
  modelNestedID : Option String
  modelStr : Option String
  providerID : Option String
  providerNestedID : Option String
  providerStr : Option String
  tokensInput : Option Nat
  tokensOutput : Option Nat
  tokensCacheCreation : Option Nat
  tokensCacheRead : Option Nat
  usagePromptTokens : Option Nat
  usageCompletionTokens : Option Nat
  usageCacheCreationTokens : Option Nat
  usageCacheReadTokens : Option Nat
  cost : Option Rat
  usageCost : Option Rat
  timeCreated : Option Int
  timeUpdated : Option Int
deriving DecidableEq, Repr

/-- Session statistics entry (the sessionStats map of src/index.ts). -/
structure SessStats where
  model : Option String
  promptTokens : Nat
  completionTokens : Nat
  cacheCreationTokens : Nat
  cacheReadTokens : Nat
  cost : Rat
deriving DecidableEq, Repr

/-- Fresh statistics entry created on first use of a session id. -/
def SessStats.empty : SessStats :=
  { model := none, promptTokens := 0, completionTokens := 0,
    cacheCreationTokens := 0, cacheReadTokens := 0, cost := 0 }

/-- Body of a submit-message request issued by doSyncMessage. -/
structure MsgRequest where
  sessionExternalId : String
  externalId : String
  role : String
  textContent : String
  model : Option String
  promptTokens : Option Nat
  completionTokens : Option Nat
  durationMs : Option Int
  parts : Option (List ToolPart)
deriving DecidableEq, Repr

/-- Body of a submit-session request issued by doSyncSession. -/
structure SessRequest where
  externalId : String
  title : String
  projectPath : Option String
  projectName : Option String
  model : Option String
  provider : Option String
  promptTokens : Nat
  completionTokens : Nat
  cacheCreationTokens : Nat
  cacheReadTokens : Nat
  cost : Rat
  durationMs : Option Int
deriving DecidableEq, Repr

/-- Pending debounce timer for one message id: a fresh physical timer id and
the delay the timer was armed with. -/
structure PendingTimer where
  msgId : String
  timerId : Nat
  delayMs : Nat
deriving DecidableEq, Repr

/-- Whole mutable state of the live plugin (the module-level sets and maps of
src/index.ts) together with the stored configuration and logs of the outbound
requests and of the timer-expiry sync attempts. -/
structure PState where
  syncedSessions : List String
  syncedMessages : List String
  messagePartsText : List (String × List String)
  messageToolParts : List (String × List ToolPart)
  messageMetadata : List (String × Metadata)
  sessionStats : List (String × SessStats)
  pending : List PendingTimer
  nextTimerId : Nat
  config : Option Config
  sent : List MsgRequest
  sessionSent : List SessRequest
  attempts : List String
deriving DecidableEq, Repr

/-- Initial state of a process lifetime: empty maps and sets, no requests. -/
def initState : PState :=
  { syncedSessions := [], syncedMessages := [], messagePartsText := [],
    messageToolParts := [], messageMetadata := [], sessionStats := [],
    pending := [], nextTimerId := 0, config := none, sent := [],
    sessionSent := [], attempts := [] }

/-! ## JavaScript-style helpers -/

/-- JavaScript a or b fallback on an optional string: an absent or empty
string falls through. -/
def jsOrS (a b : Option String) : Option String :=
  match a with
  | some s => if s = "" then b else some s
  | none => b

/-- JavaScript a or b fallback ending in a number: an absent or zero value
falls through. -/
def jsOrN (a : Option Nat) (b : Nat) : Nat :=
  match a with
  | some v => if v = 0 then b else v
  | none => b

/-- JavaScript a or b fallback ending in a rational: absent or zero falls
through. -/
def jsOrQ (a : Option Rat) (b : Rat) : Rat :=
  match a with
  | some v => if v = 0 then b else v
  | none => b

/-- JavaScript truthiness of an optional string. -/
def jsTruthyS : Option String → Bool
  | none => false
  | some s => !(s = "")

/-- Test that the trimmed text is empty, as the source checks with
textContent.trim(): true when every character is whitespace. -/
def jsTrimEmpty (s : String) : Bool := s.data.all isJsSpace

/-- Association list lookup (JavaScript Map.get). -/
def alookup {α : Type} (k : String) : List (String × α) → Option α
  | [] => none
  | (k', v) :: rest => if k' = k then some v else alookup k rest

/-- Association list update (JavaScript Map.set): the key is bound uniquely. -/
def aset {α : Type} (k : String) (v : α) (l : List (String × α)) :
    List (String × α) :=
  (k, v) :: l.filter (fun p => !(p.1 = k))

/-- Association list removal (JavaScript Map.delete). -/
def aerase {α : Type} (k : String) (l : List (String × α)) :
    List (String × α) :=
  l.filter (fun p => !(p.1 = k))

/-- Lookup of the pending timer registered for a message id. -/
def pendingFor (m : String) : List PendingTimer → Option PendingTimer
  | [] => none
  | t :: rest => if t.msgId = m then some t else pendingFor m rest

/-- Number of live timers owned by one message id. -/
def pendCount (m : String) (l : List PendingTimer) : Nat :=
  (l.filter (fun t => t.msgId = m)).length

/-- Debounce delay of src/index.ts. -/
def DEBOUNCE_MS : Nat := 800

/-! ## Live pipeline operations (src/index.ts) -/

/-- Duration computation of doSyncMessage: both timestamps must be present and
truthy (nonzero). -/
def jsDuration : Option MsgTime → Option Int
  | none => none
  | some t =>
    match t.completed, t.created with
    | some c, some r => if !(c = 0) && !(r = 0) then some (c - r) else none
    | _, _ => none

/-- Join of the buffered text parts, as textParts.join with the empty
separator. -/
def joinParts (l : List String) : String := l.foldl (fun a b => a ++ b) ""

/-- Embedding of doSyncMessage from src/index.ts: silently drop the message
when the configuration is missing or when there is neither text nor parts,
infer the role when it is unknown or absent, and otherwise append one
submit-message request. -/
def doSyncMessage (sessionId messageId role textContent : String)
    (info : MsgInfo) (parts : Option (List ToolPart)) (s : PState) : PState :=
  if !(configOk s.config) then s
  else if jsTrimEmpty textContent && (parts.getD []).isEmpty then s
  else
    let finalRole :=
      if role = "unknown" || role = "" then (inferRole textContent).str
      else role
    { s with sent := s.sent ++ [{
        sessionExternalId := sessionId,
        externalId := messageId,
        role := finalRole,
        textContent := textContent,
        model := info.modelID,
        promptTokens := info.tokens.bind (fun t => t.input),
        completionTokens := info.tokens.bind (fun t => t.output),
        durationMs := jsDuration info.time,
        parts := parts }] }

/-- Embedding of trySyncMessage from src/index.ts: skip already-synced ids,
require metadata and either text parts or tool parts, skip all-whitespace text
with no tool parts, then mark synced, call doSyncMessage, and release all
buffered state for the id. -/
def trySyncMessage (messageId : String) (s : PState) : PState :=
  if s.syncedMessages.contains messageId then s
  else
    match alookup messageId s.messageMetadata with
    | none => s
    | some metadata =>
      let textParts := alookup messageId s.messagePartsText
      let toolParts := alookup messageId s.messageToolParts
      if (textParts.getD []).isEmpty && (toolParts.getD []).isEmpty then s
      else
        let textContent := joinParts (textParts.getD [])
        if jsTrimEmpty textContent && (toolParts.getD []).isEmpty then s
        else
          let s1 := { s with syncedMessages := messageId :: s.syncedMessages }
          let s2 := doSyncMessage metadata.sessionId messageId metadata.role
            textContent metadata.info toolParts s1
          { s2 with
            messagePartsText := aerase messageId s2.messagePartsText,
            messageToolParts := aerase messageId s2.messageToolParts,
            messageMetadata := aerase messageId s2.messageMetadata }

/-- Embedding of scheduleSyncMessage from src/index.ts: cancel any timer
registered for the id and arm a fresh one with the debounce delay. -/
def scheduleSyncMessage (messageId : String) (s : PState) : PState :=
  { s with
    pending := ⟨messageId, s.nextTimerId, DEBOUNCE_MS⟩ ::
      s.pending.filter (fun t => !(t.msgId = messageId)),
    nextTimerId := s.nextTimerId + 1 }

/-- Expiry of the debounce timer of a message id: the timeout callback removes
the map entry and runs trySyncMessage once.  A fire on an id with no live
timer is a no-op (the runtime only fires armed timers).  The attempts log
records each callback run. -/
def fireTimer (messageId : String) (s : PState) : PState :=
  match pendingFor messageId s.pending with
  | none => s
  | some _ =>
    let s1 := { s with
      pending := s.pending.filter (fun t => !(t.msgId = messageId)),
      attempts := s.attempts ++ [messageId] }
    trySyncMessage messageId s1

/-- Embedding of doSyncSession from src/index.ts: read the aggregated session
statistics, prefer them over the raw session fields through the source
fallback chains, and append one submit-session request when configured. -/
def doSyncSession (session : SessionInfo) (s : PState) : PState :=
  if !(configOk s.config) then s
  else
    let projectPath := jsOrS session.pathCwd (jsOrS session.cwd session.directory)
    let stats := alookup session.id s.sessionStats
    let modelId := jsOrS (stats.bind (fun st => st.model))
      (jsOrS session.modelID (jsOrS session.modelNestedID session.modelStr))
    let providerId := jsOrS session.providerID
      (jsOrS session.providerNestedID session.providerStr)
    let promptTokens := jsOrN (stats.map (fun st => st.promptTokens))
      (jsOrN session.tokensInput (jsOrN session.usagePromptTokens 0))
    let completionTokens := jsOrN (stats.map (fun st => st.completionTokens))
      (jsOrN session.tokensOutput (jsOrN session.usageCompletionTokens 0))
    let cacheCreationTokens := jsOrN (stats.map (fun st => st.cacheCreationTokens))
      (jsOrN session.tokensCacheCreation (jsOrN session.usageCacheCreationTokens 0))
    let cacheReadTokens := jsOrN (stats.map (fun st => st.cacheReadTokens))
      (jsOrN session.tokensCacheRead (jsOrN session.usageCacheReadTokens 0))
    let cost := jsOrQ (stats.map (fun st => st.cost))
      (jsOrQ session.cost (jsOrQ session.usageCost 0))
    let durationMs :=
      match session.timeCreated, session.timeUpdated with
      | some c, some u => if !(c = 0) && !(u = 0) then some (u - c) else none
      | _, _ => none
    let title :=
      match session.title with
      | some t => if t = "" then "Untitled Session" else t
      | none => "Untitled Session"
    { s with sessionSent := s.sessionSent ++ [{
        externalId := session.id,
        title := title,
        projectPath := projectPath,
        projectName := projectPath.map (fun p => ((p.splitOn "/").getLast?).getD ""),
        model := modelId,
        provider := providerId,
        promptTokens := promptTokens,
        completionTokens := completionTokens,
        cacheCreationTokens := cacheCreationTokens,
        cacheReadTokens := cacheReadTokens,
        cost := cost,
        durationMs := durationMs }] }

/-- Session statistics update performed inside the message.updated branch. -/
def updateSessionStats (info : MsgInfo) (s : PState) : PState :=
  let sessionId := info.sessionID
  let existing := (alookup sessionId s.sessionStats).getD SessStats.empty
  let modelID := jsOrS info.modelID info.modelNestedID
  let st1 :=
    if jsTruthyS modelID && !(jsTruthyS existing.model) then
      { existing with model := modelID }
    else existing
  let st2 :=
    match info.tokens with
    | none => st1
    | some t =>
      { st1 with
        promptTokens := st1.promptTokens + t.input.getD 0,
        completionTokens := st1.completionTokens + t.output.getD 0,
        cacheCreationTokens := st1.cacheCreationTokens +
          jsOrN t.cacheWrite (jsOrN t.cacheCreation 0),
        cacheReadTokens := st1.cacheReadTokens +
          jsOrN t.cacheRead (jsOrN t.cacheReadLegacy 0) }
  let st3 :=
    match info.cost with
    | some c => if !(c = 0) then { st2 with cost := st2.cost + c } else st2
    | none => st2
  { s with sessionStats := aset sessionId st3 s.sessionStats }

/-- Default metadata created when a part event arrives for a message id with
no metadata yet. -/
def ensureMetadata (messageId sessionId : String) (s : PState) : PState :=
  match alookup messageId s.messageMetadata with
  | some _ => s
  | none =>
    let mm := aset messageId ⟨"unknown", sessionId, MsgInfo.empty⟩ s.messageMetadata
    { s with messageMetadata := mm }

/-- Incoming events of the live pipeline, carrying the normalized payload
fields the handler reads.  Identity fields use the empty string for an absent
value, matching the truthiness guards of the source. -/
inductive Event where
  | sessionCreated (info : SessionInfo)
  | sessionUpdated (info : SessionInfo)
  | sessionIdle (info : SessionInfo)
  | messageUpdated (info : MsgInfo)
  | partText (messageID sessionID : String) (text : Option String)
  | partTool (messageID sessionID : String)
      (partId tool args status : Option String)
  | partOther (messageID sessionID : String)
  | unknownEvent

/-- Embedding of the event handler of src/index.ts (the closure returned by
OpenCodeSyncPlugin): session dedup plus doSyncSession, metadata buffering plus
statistics, and part buffering with debounce scheduling. -/
def handleEvent (e : Event) (s : PState) : PState :=
  match e with
  | .sessionCreated info =>
    if info.id = "" then s
    else if s.syncedSessions.contains info.id then s
    else doSyncSession info { s with syncedSessions := info.id :: s.syncedSessions }
  | .sessionUpdated info =>
    if info.id = "" then s else doSyncSession info s
  | .sessionIdle info =>
    if info.id = "" then s else doSyncSession info s
  | .messageUpdated info =>
    if info.id = "" || info.sessionID = "" || info.role = "" then s
    else
      let mm := aset info.id ⟨info.role, info.sessionID, info⟩ s.messageMetadata
      let s1 := { s with messageMetadata := mm }
      let s2 :=
        if (alookup info.id s1.messagePartsText).isSome then
          scheduleSyncMessage info.id s1
        else s1
      updateSessionStats info s2
  | .partText mid sid text =>
    if mid = "" || sid = "" then s
    else
      let s1 := ensureMetadata mid sid s
      let mp := aset mid [text.getD ""] s1.messagePartsText
      let s2 := { s1 with messagePartsText := mp }
      scheduleSyncMessage mid s2
  | .partTool mid sid pid tool args status =>
    if mid = "" || sid = "" then s
    else
      let s1 := ensureMetadata mid sid s
      let existing := (alookup mid s1.messageToolParts).getD []
      let mt := aset mid (existing ++ [⟨"tool-call", ⟨pid, tool, args, status⟩⟩])
        s1.messageToolParts
      let s2 := { s1 with messageToolParts := mt }
      scheduleSyncMessage mid s2
  | .partOther mid sid =>
    if mid = "" || sid = "" then s else ensureMetadata mid sid s
  | .unknownEvent => s

/-- One step of the live system: an incoming event, the expiry of a debounce
timer, or a change of the stored configuration file between events. -/
inductive Act where
  | ev (e : Event)
  | fire (m : String)
  | setConfig (c : Option Config)

/-- Apply one action to the state. -/
def stepA (a : Act) (s : PState) : PState :=
  match a with
  | .ev e => handleEvent e s
  | .fire m => fireTimer m s
  | .setConfig c => { s with config := c }

/-- Run a sequence of actions. -/
def runA (acts : List Act) (s : PState) : PState :=
  acts.foldl (fun s a => stepA a s) s

/-- Process a sequence of events. -/
def runEvents (evs : List Event) (s : PState) : PState :=
  evs.foldl (fun s e => handleEvent e s) s

/-- Number of submit-message requests issued for one message id. -/
def msgCount (m : String) (l : List MsgRequest) : Nat :=
  (l.filter (fun r => r.externalId = m)).length

/-! ## Bulk sync path data model (src/cli.ts, src/config.ts) -/

/-- Token counts of a local archive message file. -/
structure LocalTokens where
  input : Option Nat
  output : Option Nat
  reasoning : Option Nat
deriving DecidableEq, Repr

/-- Parsed local archive session file (OpenCodeLocalSession), restricted to
the fields the bulk path reads. -/
structure LocalSession where
  id : String
  slug : Option String
  directory : Option String
  title : Option String
  timeCreated : Option Int
  timeUpdated : Option Int
deriving DecidableEq, Repr

/-- Parsed local archive message file (OpenCodeLocalMessage). -/
structure LocalMessage where
  id : String
  sessionID : String
  role : String
  timeCreated : Option Int
  timeCompleted : Option Int
  modelID : Option String
  providerID : Option String
  cost : Option Rat
  tokens : Option LocalTokens
deriving DecidableEq, Repr

/-- Accumulator of the per-session message scan of syncAllSessions: collected
messages, token and cost totals, and the first model/provider seen. -/
structure MsgAgg where
  messages : List LocalMessage
  totalPromptTokens : Nat
  totalCompletionTokens : Nat
  totalCost : Rat
  model : String
  provider : String
deriving DecidableEq, Repr

/-- Initial accumulator of the per-session message scan. -/
def MsgAgg.init : MsgAgg :=
  { messages := [], totalPromptTokens := 0, totalCompletionTokens := 0,
    totalCost := 0, model := "", provider := "" }

/-- One iteration of the message scan of syncAllSessions: skip unparsable
files, keep messages whose id is present and whose sessionID matches the
session, accumulate tokens and raw cost, and record the first non-empty
model and provider. -/
def aggStep (sessionId : String) (acc : MsgAgg)
    (file : Option LocalMessage) : MsgAgg :=
  match file with
  | none => acc
  | some msg =>
    if !(msg.id = "") && msg.sessionID = sessionId then
      let acc1 := { acc with messages := acc.messages ++ [msg] }
      let acc2 :=
        match msg.tokens with
        | some t =>
          { acc1 with
            totalPromptTokens := acc1.totalPromptTokens + t.input.getD 0,
            totalCompletionTokens := acc1.totalCompletionTokens + t.output.getD 0 }
        | none => acc1
      let acc3 :=
        match msg.cost with
        | some c =>
          if !(c = 0) then { acc2 with totalCost := acc2.totalCost + c } else acc2
        | none => acc2
      let acc4 :=
        if jsTruthyS msg.modelID && acc3.model = "" then
          { acc3 with model := msg.modelID.getD "" }
        else acc3
      if jsTruthyS msg.providerID && acc4.provider = "" then
        { acc4 with provider := msg.providerID.getD "" }
      else acc4
    else acc

/-- Per-session aggregation of syncAllSessions over the parsed message files
of one session directory, in file order. -/
def aggregateMessages (sessionId : String)
    (files : List (Option LocalMessage)) : MsgAgg :=
  files.foldl (aggStep sessionId) MsgAgg.init

/-- Sum of the raw per-message cost fields of the messages a session scan
keeps: the specification language for the archive cost fallback. -/
def rawCostSum (sessionId : String) (files : List (Option LocalMessage)) : Rat :=
  (((files.filterMap id).filter
    (fun m => !(m.id = "") && m.sessionID = sessionId)).map
    (fun m => m.cost.getD 0)).sum

/-- Bulk sync modes of the sync command. -/
inductive BulkMode where
  | all
  | new
  | force
deriving DecidableEq, Repr

/-- Session collection loop of syncAllSessions: every parsed session file
with a present id is kept, in scan order. -/
def collectSessions (parsed : List (Option LocalSession)) : List LocalSession :=
  parsed.foldl (fun acc o =>
    match o with
    | some d => if !(d.id = "") then acc ++ [d] else acc
    | none => acc) []

/-- Result of the backend session-id list query: the returned ids when the
endpoint answered ok with an array, the empty set on any error or when the
endpoint is absent. -/
def fetchBackendSessionIds (remote : Option (List String)) : List String :=
  match remote with
  | some ids => ids
  | none => []

/-- Mode dispatch of the sync command followed by the selection phase of
syncAllSessions: force clears the persisted tracking record first; the
already-synced set is the backend set in all mode, the tracking record in new
mode, and empty in force mode; selected sessions are the collected ones whose
id is not already synced.  Returns the tracking record after the dispatch and
the selected sessions. -/
def runSyncSelection (mode : BulkMode) (tracking : List String)
    (parsed : List (Option LocalSession)) (remote : Option (List String)) :
    List String × List LocalSession :=
  let tracking1 :=
    match mode with
    | .force => []
    | _ => tracking
  let sessions := collectSessions parsed
  let alreadySynced : List String :=
    match mode with
    | .all => fetchBackendSessionIds remote
    | .new => tracking1
    | .force => []
  (tracking1, sessions.filter (fun s => !(alreadySynced.contains s.id)))

/-- Observable outcome of the bulk session loop: the submit-message requests
issued (session id, message id), the summary counters, and the session ids
appended to the tracking record at the end of the run. -/
structure BulkState where
  msgRequests : List (String × String)
  syncedSessionCount : Nat
  syncedMessageCount : Nat
  failedSessions : Nat
  newlySyncedIds : List String
deriving DecidableEq, Repr

/-- Initial counters of the bulk session loop. -/
def BulkState.init : BulkState :=
  { msgRequests := [], syncedSessionCount := 0, syncedMessageCount := 0,
    failedSessions := 0, newlySyncedIds := [] }

/-- One message submission of the bulk loop: issue the submit-message request
and count it when the network call succeeds. -/
def submitMessage (sessId : String) (msgOk : String → Bool)
    (b : BulkState) (msg : LocalMessage) : BulkState :=
  let b3 := { b with msgRequests := b.msgRequests ++ [(sessId, msg.id)] }
  if msgOk msg.id then
    { b3 with syncedMessageCount := b3.syncedMessageCount + 1 }
  else b3

/-- One iteration of the bulk session loop of syncAllSessions: aggregate the
session messages, submit the session (the oracle says whether the network
call succeeds), and on failure count it and skip every message submission;
on success record the id as newly synced and submit each collected message. -/
def processSession (sessionOk : String → Bool) (msgOk : String → Bool)
    (msgFiles : String → List (Option LocalMessage))
    (b : BulkState) (sess : LocalSession) : BulkState :=
  let agg := aggregateMessages sess.id (msgFiles sess.id)
  if !(sessionOk sess.id) then
    { b with failedSessions := b.failedSessions + 1 }
  else
    let b1 := { b with
      syncedSessionCount := b.syncedSessionCount + 1,
      newlySyncedIds := b.newlySyncedIds ++ [sess.id] }
    agg.messages.foldl (submitMessage sess.id msgOk) b1

/-- Whole bulk session loop over the selected sessions. -/
def runBulk (sessionOk msgOk : String → Bool)
    (msgFiles : String → List (Option LocalMessage))
    (sessionsToSync : List LocalSession) : BulkState :=
  sessionsToSync.foldl (processSession sessionOk msgOk msgFiles) BulkState.init

/-- Tracking record after a bulk run: addSyncedSessions unions the newly
synced ids into the persisted set. -/
def finalTracking (old : List String) (b : BulkState) : List String :=
  old ++ b.newlySyncedIds

/-! ## Shared lemmas about the map embedding -/

theorem alookup_aset_self {α : Type} (k : String) (v : α)
    (l : List (String × α)) : alookup k (aset k v l) = some v := by
  simp [alookup, aset]

theorem alookup_filter_ne {α : Type} (k k' : String) (h : k ≠ k')
    (l : List (String × α)) :
    alookup k (l.filter (fun p => !(p.1 = k'))) = alookup k l := by
  induction l with
  | nil => rfl
  | cons p rest ih =>
    by_cases hp : p.1 = k'
    · have hpk : p.1 ≠ k := by rw [hp]; exact Ne.symm h
      rw [List.filter_cons_of_neg (by simp [hp]), ih]
      simp [alookup, hpk]
    · rw [List.filter_cons_of_pos (by simp [hp])]
      simp [alookup, ih]

theorem alookup_aset_ne {α : Type} (k k' : String) (v : α) (h : k ≠ k')
    (l : List (String × α)) : alookup k (aset k' v l) = alookup k l := by
  simp [aset, alookup, Ne.symm h, alookup_filter_ne k k' h]

theorem alookup_aerase_self {α : Type} (k : String) (l : List (String × α)) :
    alookup k (aerase k l) = none := by
  induction l with
  | nil => rfl
  | cons p rest ih =>
    by_cases hp : p.1 = k
    · simpa [aerase, List.filter, hp] using ih
    · simpa [aerase, List.filter, hp, alookup, hp] using ih

theorem alookup_aerase_ne {α : Type} (k k' : String) (h : k ≠ k')
    (l : List (String × α)) : alookup k (aerase k' l) = alookup k l := by
  simpa [aerase] using alookup_filter_ne k k' h l

/-! ## Frame lemmas for the live pipeline operations -/

@[simp] theorem doSyncSession_sent (i : SessionInfo) (s : PState) :
    (doSyncSession i s).sent = s.sent := by
  unfold doSyncSession; split <;> rfl

@[simp] theorem doSyncSession_syncedMessages (i : SessionInfo) (s : PState) :
    (doSyncSession i s).syncedMessages = s.syncedMessages := by
  unfold doSyncSession; split <;> rfl

@[simp] theorem doSyncSession_syncedSessions (i : SessionInfo) (s : PState) :
    (doSyncSession i s).syncedSessions = s.syncedSessions := by
  unfold doSyncSession; split <;> rfl

@[simp] theorem doSyncSession_attempts (i : SessionInfo) (s : PState) :
    (doSyncSession i s).attempts = s.attempts := by
  unfold doSyncSession; split <;> rfl

@[simp] theorem doSyncSession_config (i : SessionInfo) (s : PState) :
    (doSyncSession i s).config = s.config := by
  unfold doSyncSession; split <;> rfl

@[simp] theorem doSyncSession_messagePartsText (i : SessionInfo) (s : PState) :
    (doSyncSession i s).messagePartsText = s.messagePartsText := by
  unfold doSyncSession; split <;> rfl

@[simp] theorem doSyncSession_messageToolParts (i : SessionInfo) (s : PState) :
    (doSyncSession i s).messageToolParts = s.messageToolParts := by
  unfold doSyncSession; split <;> rfl

@[simp] theorem doSyncSession_messageMetadata (i : SessionInfo) (s : PState) :
    (doSyncSession i s).messageMetadata = s.messageMetadata := by
  unfold doSyncSession; split <;> rfl

@[simp] theorem doSyncSession_pending (i : SessionInfo) (s : PState) :
    (doSyncSession i s).pending = s.pending := by
  unfold doSyncSession; split <;> rfl

@[simp] theorem doSyncSession_nextTimerId (i : SessionInfo) (s : PState) :
    (doSyncSession i s).nextTimerId = s.nextTimerId := by
  unfold doSyncSession; split <;> rfl

@[simp] theorem updateSessionStats_sent (i : MsgInfo) (s : PState) :
    (updateSessionStats i s).sent = s.sent := rfl

@[simp] theorem updateSessionStats_syncedMessages (i : MsgInfo) (s : PState) :
    (updateSessionStats i s).syncedMessages = s.syncedMessages := rfl

@[simp] theorem updateSessionStats_attempts (i : MsgInfo) (s : PState) :
    (updateSessionStats i s).attempts = s.attempts := rfl

@[simp] theorem updateSessionStats_config (i : MsgInfo) (s : PState) :
    (updateSessionStats i s).config = s.config := rfl

@[simp] theorem updateSessionStats_messagePartsText (i : MsgInfo) (s : PState) :
    (updateSessionStats i s).messagePartsText = s.messagePartsText := rfl

@[simp] theorem updateSessionStats_messageToolParts (i : MsgInfo) (s : PState) :
    (updateSessionStats i s).messageToolParts = s.messageToolParts := rfl

@[simp] theorem updateSessionStats_messageMetadata (i : MsgInfo) (s : PState) :
    (updateSessionStats i s).messageMetadata = s.messageMetadata := rfl

@[simp] theorem updateSessionStats_pending (i : MsgInfo) (s : PState) :
    (updateSessionStats i s).pending = s.pending := rfl

@[simp] theorem updateSessionStats_nextTimerId (i : MsgInfo) (s : PState) :
    (updateSessionStats i s).nextTimerId = s.nextTimerId := rfl

@[simp] theorem ensureMetadata_sent (m sid : String) (s : PState) :
    (ensureMetadata m sid s).sent = s.sent := by
  unfold ensureMetadata; split <;> rfl

@[simp] theorem ensureMetadata_syncedMessages (m sid : String) (s : PState) :
    (ensureMetadata m sid s).syncedMessages = s.syncedMessages := by
  unfold ensureMetadata; split <;> rfl

@[simp] theorem ensureMetadata_attempts (m sid : String) (s : PState) :
    (ensureMetadata m sid s).attempts = s.attempts := by
  unfold ensureMetadata; split <;> rfl

@[simp] theorem ensureMetadata_config (m sid : String) (s : PState) :
    (ensureMetadata m sid s).config = s.config := by
  unfold ensureMetadata; split <;> rfl

@[simp] theorem ensureMetadata_messagePartsText (m sid : String) (s : PState) :
    (ensureMetadata m sid s).messagePartsText = s.messagePartsText := by
  unfold ensureMetadata; split <;> rfl

@[simp] theorem ensureMetadata_messageToolParts (m sid : String) (s : PState) :
    (ensureMetadata m sid s).messageToolParts = s.messageToolParts := by
  unfold ensureMetadata; split <;> rfl

@[simp] theorem ensureMetadata_pending (m sid : String) (s : PState) :
    (ensureMetadata m sid s).pending = s.pending := by
  unfold ensureMetadata; split <;> rfl

@[simp] theorem ensureMetadata_nextTimerId (m sid : String) (s : PState) :
    (ensureMetadata m sid s).nextTimerId = s.nextTimerId := by
  unfold ensureMetadata; split <;> rfl

@[simp] theorem scheduleSyncMessage_sent (m : String) (s : PState) :
    (scheduleSyncMessage m s).sent = s.sent := rfl

@[simp] theorem scheduleSyncMessage_syncedMessages (m : String) (s : PState) :
    (scheduleSyncMessage m s).syncedMessages = s.syncedMessages := rfl

@[simp] theorem scheduleSyncMessage_attempts (m : String) (s : PState) :
    (scheduleSyncMessage m s).attempts = s.attempts := rfl

@[simp] theorem scheduleSyncMessage_config (m : String) (s : PState) :
    (scheduleSyncMessage m s).config = s.config := rfl

@[simp] theorem scheduleSyncMessage_messagePartsText (m : String) (s : PState) :
    (scheduleSyncMessage m s).messagePartsText = s.messagePartsText := rfl

@[simp] theorem scheduleSyncMessage_messageToolParts (m : String) (s : PState) :
    (scheduleSyncMessage m s).messageToolParts = s.messageToolParts := rfl

@[simp] theorem scheduleSyncMessage_messageMetadata (m : String) (s : PState) :
    (scheduleSyncMessage m s).messageMetadata = s.messageMetadata := rfl

@[simp] theorem doSyncMessage_syncedMessages (a b c d : String) (i : MsgInfo)
    (p : Option (List ToolPart)) (s : PState) :
    (doSyncMessage a b c d i p s).syncedMessages = s.syncedMessages := by
  unfold doSyncMessage; split
  · rfl
  · split <;> rfl

@[simp] theorem doSyncMessage_messagePartsText (a b c d : String) (i : MsgInfo)
    (p : Option (List ToolPart)) (s : PState) :
    (doSyncMessage a b c d i p s).messagePartsText = s.messagePartsText := by
  unfold doSyncMessage; split
  · rfl
  · split <;> rfl

@[simp] theorem doSyncMessage_messageToolParts (a b c d : String) (i : MsgInfo)
    (p : Option (List ToolPart)) (s : PState) :
    (doSyncMessage a b c d i p s).messageToolParts = s.messageToolParts := by
  unfold doSyncMessage; split
  · rfl
  · split <;> rfl

@[simp] theorem doSyncMessage_messageMetadata (a b c d : String) (i : MsgInfo)
    (p : Option (List ToolPart)) (s : PState) :
    (doSyncMessage a b c d i p s).messageMetadata = s.messageMetadata := by
  unfold doSyncMessage; split
  · rfl
  · split <;> rfl

@[simp] theorem doSyncMessage_pending (a b c d : String) (i : MsgInfo)
    (p : Option (List ToolPart)) (s : PState) :
    (doSyncMessage a b c d i p s).pending = s.pending := by
  unfold doSyncMessage; split
  · rfl
  · split <;> rfl

@[simp] theorem doSyncMessage_attempts (a b c d : String) (i : MsgInfo)
    (p : Option (List ToolPart)) (s : PState) :
    (doSyncMessage a b c d i p s).attempts = s.attempts := by
  unfold doSyncMessage; split
  · rfl
  · split <;> rfl

@[simp] theorem doSyncMessage_config (a b c d : String) (i : MsgInfo)
    (p : Option (List ToolPart)) (s : PState) :
    (doSyncMessage a b c d i p s).config = s.config := by
  unfold doSyncMessage; split
  · rfl
  · split <;> rfl

/-- Submit-message requests appended by doSyncMessage: none, or exactly one
carrying the processed message id as its external id. -/
theorem doSyncMessage_sent_cases (a b c d : String) (i : MsgInfo)
    (p : Option (List ToolPart)) (s : PState) :
    (doSyncMessage a b c d i p s).sent = s.sent ∨
    ∃ r : MsgRequest, r.externalId = b ∧
      (doSyncMessage a b c d i p s).sent = s.sent ++ [r] := by
  unfold doSyncMessage; split
  · exact Or.inl rfl
  · split
    · exact Or.inl rfl
    · exact Or.inr ⟨_, rfl, rfl⟩

/-- Event handling never issues a submit-message request, never marks a
message synced, and never runs a timer callback. -/
theorem handleEvent_frame (e : Event) (s : PState) :
    (handleEvent e s).sent = s.sent ∧
    (handleEvent e s).syncedMessages = s.syncedMessages ∧
    (handleEvent e s).attempts = s.attempts ∧
    (handleEvent e s).config = s.config := by
  cases e with
  | sessionCreated info =>
    by_cases h : info.id = "" <;> by_cases h2 : info.id ∈ s.syncedSessions <;>
      simp [handleEvent, h, h2]
  | sessionUpdated info =>
    by_cases h : info.id = "" <;> simp [handleEvent, h]
  | sessionIdle info =>
    by_cases h : info.id = "" <;> simp [handleEvent, h]
  | messageUpdated info =>
    simp only [handleEvent]
    split
    · exact ⟨rfl, rfl, rfl, rfl⟩
    · split <;> simp
  | partText mid sid text =>
    simp only [handleEvent]
    split
    · exact ⟨rfl, rfl, rfl, rfl⟩
    · simp
  | partTool mid sid pid tool args status =>
    simp only [handleEvent]
    split
    · exact ⟨rfl, rfl, rfl, rfl⟩
    · simp
  | partOther mid sid =>
    simp only [handleEvent]
    split
    · exact ⟨rfl, rfl, rfl, rfl⟩
    · simp
  | unknownEvent => exact ⟨rfl, rfl, rfl, rfl⟩

/-- A message id already in the synced set makes trySyncMessage a no-op. -/
theorem trySyncMessage_of_synced (m : String) (s : PState)
    (h : s.syncedMessages.contains m = true) : trySyncMessage m s = s := by
  have hm : m ∈ s.syncedMessages := by simpa using h
  unfold trySyncMessage
  simp [hm]

/-- Case analysis of trySyncMessage: either the state is unchanged, or the id
was not yet synced, becomes synced, all three buffers for it are released, and
at most one submit-message request carrying the id is appended. -/
theorem trySyncMessage_cases (m : String) (s : PState) :
    trySyncMessage m s = s ∨
    (s.syncedMessages.contains m = false ∧
     (trySyncMessage m s).syncedMessages = m :: s.syncedMessages ∧
     alookup m (trySyncMessage m s).messagePartsText = none ∧
     alookup m (trySyncMessage m s).messageToolParts = none ∧
     alookup m (trySyncMessage m s).messageMetadata = none ∧
     ((trySyncMessage m s).sent = s.sent ∨
      ∃ r : MsgRequest, r.externalId = m ∧
        (trySyncMessage m s).sent = s.sent ++ [r])) := by
  simp only [trySyncMessage]
  split
  · exact Or.inl rfl
  · rename_i hsync
    split
    · exact Or.inl rfl
    · split
      · exact Or.inl rfl
      · split
        · exact Or.inl rfl
        · refine Or.inr ⟨by simpa using hsync, ?_, ?_, ?_, ?_, ?_⟩
          · simp
          · simp [alookup_aerase_self]
          · simp [alookup_aerase_self]
          · simp [alookup_aerase_self]
          · rcases doSyncMessage_sent_cases _ m _ _ _ _
              { s with syncedMessages := m :: s.syncedMessages } with h | ⟨r, hr, hsent⟩
            · exact Or.inl (by simpa using h)
            · exact Or.inr ⟨r, hr, by simpa using hsent⟩

/-! ## Claim C9: role inference -/

/-- Explicit disjunction of the five assistant patterns, in source order. -/
def assistantHit (s : String) : Bool :=
  matchesAssistantOpener s || hasCodeBlock s || yesNoMatch s ||
  hasBoldPair s || numberedBold s

/-- Explicit disjunction of the three user patterns, in source order. -/
def userHit (s : String) : Bool :=
  endsWithQuestion s || matchesUserOpener s || startsWithAt s

/-- C9: role inference is a total, deterministic, side-effect-free function
from text into the two roles (it is a pure Lean function, so the same input
always yields the same role); the assistant-leaning patterns are tested before
the user-leaning patterns, and when no pattern matches, text longer than 500
characters classifies as assistant and text of at most 500 characters as
user. -/
theorem c9_inferRole_total_ordered_fallback (s : String) :
    (inferRole s = Role.assistant ∨ inferRole s = Role.user) ∧
    inferRole s =
      (if assistantHit s then Role.assistant
       else if userHit s then Role.user
       else if s.data.length > 500 then Role.assistant
       else Role.user) := by
  have ha : assistantPatterns.any (fun p => p s) = assistantHit s := by
    simp [assistantPatterns, assistantHit, Bool.or_assoc]
  have hu : userPatterns.any (fun p => p s) = userHit s := by
    simp [userPatterns, userHit, Bool.or_assoc]
  refine ⟨?_, ?_⟩
  · unfold inferRole
    split
    · exact Or.inl rfl
    · split
      · exact Or.inr rfl
      · split
        · exact Or.inl rfl
        · exact Or.inr rfl
  · unfold inferRole
    simp only [ha, hu]

/-! ## Claim C2: empty messages are never forwarded -/

/-- Joined buffered text snapshot of a message id, as trySyncMessage joins the
buffered text parts. -/
def bufferedText (m : String) (s : PState) : String :=
  joinParts ((alookup m s.messagePartsText).getD [])

/-- Buffered structured tool parts of a message id. -/
def bufferedTools (m : String) (s : PState) : List ToolPart :=
  (alookup m s.messageToolParts).getD []

/-- With all-whitespace joined text and no tool parts, trySyncMessage leaves
the state untouched. -/
theorem trySyncMessage_noop_of_empty (m : String) (s : PState)
    (h1 : jsTrimEmpty (bufferedText m s) = true)
    (h2 : bufferedTools m s = []) : trySyncMessage m s = s := by
  simp only [trySyncMessage]
  split
  · rfl
  · split
    · rfl
    · split
      · rfl
      · split
        · rfl
        · rename_i hcond
          have hb : jsTrimEmpty (joinParts ((alookup m s.messagePartsText).getD []))
              = true := h1
          have hc : ((alookup m s.messageToolParts).getD []).isEmpty = true := by
            rw [show (alookup m s.messageToolParts).getD [] = [] from h2]
            rfl
          exact absurd (by rw [hb, hc]; rfl) hcond

/-- C2: for every message id and buffer state, if the accumulated text is
empty after trimming and the structured-part list is empty, then no
submit-message request is issued at debounce expiry, regardless of metadata
presence. -/
theorem c2_empty_message_never_forwarded (s : PState) (m : String)
    (h1 : jsTrimEmpty (bufferedText m s) = true)
    (h2 : bufferedTools m s = []) :
    (fireTimer m s).sent = s.sent := by
  unfold fireTimer
  split
  · rfl
  · have hno := trySyncMessage_noop_of_empty m
      { s with pending := s.pending.filter (fun t => !(t.msgId = m)),
               attempts := s.attempts ++ [m] } h1 h2
    show (trySyncMessage m { s with
        pending := s.pending.filter (fun t => !(t.msgId = m)),
        attempts := s.attempts ++ [m] }).sent = s.sent
    rw [hno]

/-- Witness for C2 at a concrete state: one text part event carrying a single
space, then the debounce timer expires; no request is issued. -/
theorem c2_empty_message_never_forwarded_witness :
    jsTrimEmpty (bufferedText "m1"
      (runEvents [Event.partText "m1" "s1" (some " ")] initState)) = true ∧
    bufferedTools "m1"
      (runEvents [Event.partText "m1" "s1" (some " ")] initState) = [] ∧
    (fireTimer "m1"
      (runEvents [Event.partText "m1" "s1" (some " ")] initState)).sent =
      (runEvents [Event.partText "m1" "s1" (some " ")] initState).sent :=
  ⟨by decide, by decide,
    c2_empty_message_never_forwarded _ "m1" (by decide) (by decide)⟩

/-! ## Claim C3: text content events replace the buffered text -/

/-- A text part event with present ids stores exactly the singleton snapshot
of its text, replacing whatever was buffered. -/
theorem handleEvent_partText_buffer (m sid : String) (t : Option String)
    (s : PState) (hm : m ≠ "") (hs : sid ≠ "") :
    alookup m (handleEvent (Event.partText m sid t) s).messagePartsText
      = some [t.getD ""] := by
  simp [handleEvent, hm, hs, alookup_aset_self]

/-- Folding a nonempty sequence of text part events for the same message id
leaves the buffer at the singleton snapshot of the last text. -/
theorem runEvents_text_buffer (m sid : String) (hm : m ≠ "") (hs : sid ≠ "")
    (texts : List String) (s : PState) (hne : texts ≠ []) :
    alookup m (runEvents (texts.map fun t => Event.partText m sid (some t)) s).messagePartsText
      = (texts.getLast?).map (fun t => [t]) := by
  induction texts generalizing s with
  | nil => exact absurd rfl hne
  | cons t rest ih =>
    cases rest with
    | nil => simpa using handleEvent_partText_buffer m sid (some t) s hm hs
    | cons t2 rest2 =>
      have hrw : runEvents ((t :: t2 :: rest2).map fun x => Event.partText m sid (some x)) s
          = runEvents ((t2 :: rest2).map fun x => Event.partText m sid (some x))
              (handleEvent (Event.partText m sid (some t)) s) := rfl
      rw [hrw, ih _ (List.cons_ne_nil t2 rest2), List.getLast?_cons_cons]

/-- C3: for every non-empty sequence of text content events for the same
message id, the buffered text after the sequence equals the text of the last
event (replacement semantics), never a concatenation. -/
theorem c3_text_replacement (s : PState) (m sid : String) (texts : List String)
    (hne : texts ≠ []) (hm : m ≠ "") (hs : sid ≠ "") :
    alookup m (runEvents (texts.map fun t => Event.partText m sid (some t)) s).messagePartsText
      = some [texts.getLast hne] := by
  rw [runEvents_text_buffer m sid hm hs texts s hne,
    List.getLast?_eq_getLast texts hne]
  rfl

/-- Witness for C3: two text events for the same id; the buffer holds only the
second snapshot. -/
theorem c3_text_replacement_witness :
    (["a", "ab"] : List String) ≠ [] ∧ "m1" ≠ "" ∧ "s1" ≠ "" ∧
    alookup "m1" (runEvents ((["a", "ab"]).map
      (fun t => Event.partText "m1" "s1" (some t))) initState).messagePartsText
      = some ["ab"] :=
  ⟨by decide, by decide, by decide, by
    rw [c3_text_replacement initState "m1" "s1" ["a", "ab"]
      (by decide) (by decide) (by decide)]
    rfl⟩

/-! ## Claim C4: tool part events append to the buffered part list -/

/-- Payload of one tool part event for a fixed message id. -/
structure ToolEvt where
  sessionID : String
  partId : Option String
  tool : Option String
  args : Option String
  status : Option String
deriving DecidableEq, Repr

/-- Event carrying the tool payload for a message id. -/
def ToolEvt.toEvent (m : String) (p : ToolEvt) : Event :=
  Event.partTool m p.sessionID p.partId p.tool p.args p.status

/-- Buffer entry the handler builds from one tool part event. -/
def ToolEvt.entry (p : ToolEvt) : ToolPart :=
  ⟨"tool-call", ⟨p.partId, p.tool, p.args, p.status⟩⟩

/-- A tool part event with present ids appends exactly one entry to the
buffered part list. -/
theorem handleEvent_partTool_buffer (m sid : String)
    (pid tool args status : Option String) (s : PState)
    (hm : m ≠ "") (hs : sid ≠ "") :
    alookup m (handleEvent (Event.partTool m sid pid tool args status) s).messageToolParts
      = some ((alookup m s.messageToolParts).getD []
          ++ [⟨"tool-call", ⟨pid, tool, args, status⟩⟩]) := by
  simp [handleEvent, hm, hs, alookup_aset_self]

/-- C4: for every sequence of tool part events for the same message id, the
buffered structured-part list after the sequence equals the ordered append of
one entry per event to the previously buffered list; no event replaces or
removes previously buffered parts. -/
theorem c4_tool_parts_append (s : PState) (m : String) (evs : List ToolEvt)
    (hne : evs ≠ []) (hm : m ≠ "") (hs : ∀ p ∈ evs, p.sessionID ≠ "") :
    alookup m (runEvents (evs.map (ToolEvt.toEvent m)) s).messageToolParts
      = some ((alookup m s.messageToolParts).getD [] ++ evs.map ToolEvt.entry) := by
  induction evs generalizing s with
  | nil => exact absurd rfl hne
  | cons p rest ih =>
    have hp : p.sessionID ≠ "" := hs p (List.mem_cons_self p rest)
    have hstep := handleEvent_partTool_buffer m p.sessionID p.partId p.tool
      p.args p.status s hm hp
    cases rest with
    | nil => simpa [ToolEvt.toEvent, ToolEvt.entry] using hstep
    | cons q rest2 =>
      have hrw : runEvents ((p :: q :: rest2).map (ToolEvt.toEvent m)) s
          = runEvents ((q :: rest2).map (ToolEvt.toEvent m))
              (handleEvent (ToolEvt.toEvent m p) s) := rfl
      rw [hrw, ih _ (List.cons_ne_nil q rest2)
        (fun x hx => hs x (List.mem_cons_of_mem _ hx))]
      simp only [ToolEvt.toEvent] at *
      rw [hstep]
      simp [ToolEvt.entry, List.append_assoc]

/-- Witness for C4: two tool events for the same id; the buffer is the ordered
append of both entries. -/
theorem c4_tool_parts_append_witness :
    ([⟨"s1", some "p1", some "bash", none, some "running"⟩,
      ⟨"s1", some "p2", some "read", none, some "done"⟩] : List ToolEvt) ≠ [] ∧
    "m1" ≠ "" ∧
    alookup "m1" (runEvents (([⟨"s1", some "p1", some "bash", none, some "running"⟩,
        ⟨"s1", some "p2", some "read", none, some "done"⟩] : List ToolEvt).map
        (ToolEvt.toEvent "m1")) initState).messageToolParts
      = some [⟨"tool-call", ⟨some "p1", some "bash", none, some "running"⟩⟩,
              ⟨"tool-call", ⟨some "p2", some "read", none, some "done"⟩⟩] :=
  ⟨by decide, by decide, by
    rw [c4_tool_parts_append initState "m1" _ (by decide) (by decide)
      (by decide)]
    rfl⟩

/-! ## Claim C6: bulk path session cost -/

/-- Cost contribution of one scanned message file to the session total. -/
def msgCostContrib (sessionId : String) (o : Option LocalMessage) : Rat :=
  match o with
  | some m => if !(m.id = "") && m.sessionID = sessionId then m.cost.getD 0 else 0
  | none => 0

/-- One aggregation step adds exactly the raw cost contribution of the file. -/
theorem aggStep_totalCost (sid : String) (acc : MsgAgg) (o : Option LocalMessage) :
    (aggStep sid acc o).totalCost = acc.totalCost + msgCostContrib sid o := by
  cases o with
  | none => simp [aggStep, msgCostContrib]
  | some msg =>
    simp only [aggStep, msgCostContrib]
    split
    · rcases htok : msg.tokens with _ | t <;> rcases hc : msg.cost with _ | c <;>
        simp [htok, hc, apply_ite MsgAgg.totalCost]
    · simp

/-- Folded form: the total cost after scanning a file list is the starting
cost plus the sum of the raw cost contributions. -/
theorem aggregate_totalCost_fold (sid : String) (files : List (Option LocalMessage)) :
    ∀ acc : MsgAgg, (files.foldl (aggStep sid) acc).totalCost
      = acc.totalCost + (files.map (msgCostContrib sid)).sum := by
  induction files with
  | nil => intro acc; simp
  | cons o rest ih =>
    intro acc
    have : (o :: rest).foldl (aggStep sid) acc = rest.foldl (aggStep sid) (aggStep sid acc o) := rfl
    rw [this, ih (aggStep sid acc o), aggStep_totalCost]
    simp [add_assoc]

/-- The contribution sum is the raw cost sum of the kept messages. -/
theorem contrib_sum_eq_rawCostSum (sid : String)
    (files : List (Option LocalMessage)) :
    (files.map (msgCostContrib sid)).sum = rawCostSum sid files := by
  induction files with
  | nil => simp [rawCostSum]
  | cons o rest ih =>
    cases o with
    | none =>
      have hr : rawCostSum sid (none :: rest) = rawCostSum sid rest := by
        simp [rawCostSum, List.filterMap_cons]
      simp only [List.map_cons, List.sum_cons, msgCostContrib]
      rw [hr, ih]
      simp
    | some m =>
      by_cases hv : (!(m.id = "") && m.sessionID = sid) = true
      · have hr : rawCostSum sid (some m :: rest)
            = m.cost.getD 0 + rawCostSum sid rest := by
          unfold rawCostSum
          rw [show List.filterMap id (some m :: rest)
              = m :: List.filterMap id rest from by simp,
            @List.filter_cons_of_pos LocalMessage
              (fun x => !(x.id = "") && x.sessionID = sid) m
              (List.filterMap id rest) hv,
            List.map_cons, List.sum_cons]
        simp only [List.map_cons, List.sum_cons, msgCostContrib, hv, if_true]
        rw [hr, ih]
      · have hr : rawCostSum sid (some m :: rest) = rawCostSum sid rest := by
          unfold rawCostSum
          rw [show List.filterMap id (some m :: rest)
              = m :: List.filterMap id rest from by simp,
            @List.filter_cons_of_neg LocalMessage
              (fun x => !(x.id = "") && x.sessionID = sid) m
              (List.filterMap id rest) hv]
        simp only [List.map_cons, List.sum_cons, msgCostContrib, hv, if_false]
        rw [hr, ih]
        simp

/-- C6 (amended): in the bulk path the computed session cost always equals the
sum of the raw per-message cost fields found in the archive, for every model;
there is no pricing table. -/
theorem c6_bulk_cost_is_raw_sum (sid : String)
    (files : List (Option LocalMessage)) :
    (aggregateMessages sid files).totalCost = rawCostSum sid files := by
  rw [show aggregateMessages sid files = files.foldl (aggStep sid) MsgAgg.init from rfl,
    aggregate_totalCost_fold sid files MsgAgg.init, contrib_sum_eq_rawCostSum]
  simp [MsgAgg.init]

/-- Archive message used by the C6 counterexample: the claimed model with one
million input and output tokens each and no raw cost field. -/
def c6msg : LocalMessage :=
  { id := "m1", sessionID := "s1", role := "assistant", timeCreated := none,
    timeCompleted := none, modelID := some "claude-sonnet-4-20250514",
    providerID := some "anthropic", cost := none,
    tokens := some { input := some 1000000, output := some 1000000, reasoning := none } }

/-- Counterexample to C6 as stated: a session whose model is
claude-sonnet-4-20250514 with exactly 1,000,000 input and 1,000,000 output
tokens and zero cache tokens is aggregated with cost 0, not 18.0, because the
bulk path only sums raw per-message cost fields and consults no pricing
table. -/
theorem c6_counterexample :
    (aggregateMessages "s1" [some c6msg]).model = "claude-sonnet-4-20250514" ∧
    (aggregateMessages "s1" [some c6msg]).totalPromptTokens = 1000000 ∧
    (aggregateMessages "s1" [some c6msg]).totalCompletionTokens = 1000000 ∧
    (aggregateMessages "s1" [some c6msg]).totalCost = 0 ∧
    ¬ ((aggregateMessages "s1" [some c6msg]).totalCost = 18) := by
  refine ⟨by decide, by decide, by decide, by decide, by decide⟩

/-! ## Claim C7: bulk mode selection -/

/-- Membership in the session collection loop: exactly the parsed session
files with a present id, over any accumulator. -/
theorem collectSessions_fold_mem (parsed : List (Option LocalSession)) :
    ∀ (acc : List LocalSession) (s : LocalSession),
      (s ∈ parsed.foldl (fun acc o =>
        match o with
        | some d => if !(d.id = "") then acc ++ [d] else acc
        | none => acc) acc) ↔ s ∈ acc ∨ (some s ∈ parsed ∧ s.id ≠ "") := by
  induction parsed with
  | nil => intro acc s; simp
  | cons o rest ih =>
    intro acc s
    cases o with
    | none =>
      simp only [List.foldl_cons]
      rw [ih]
      simp
    | some d =>
      simp only [List.foldl_cons]
      by_cases hd : d.id = ""
      · rw [show (if !(d.id = "") then acc ++ [d] else acc) = acc from by
          simp [hd]]
        rw [ih]
        simp only [List.mem_cons, Option.some.injEq]
        constructor
        · rintro (h | ⟨h1, h2⟩)
          · exact Or.inl h
          · exact Or.inr ⟨Or.inr h1, h2⟩
        · rintro (h | ⟨(rfl | h1), h2⟩)
          · exact Or.inl h
          · exact absurd hd h2
          · exact Or.inr ⟨h1, h2⟩
      · rw [show (if !(d.id = "") then acc ++ [d] else acc) = acc ++ [d] from by
          simp [hd]]
        rw [ih]
        simp only [List.mem_append, List.mem_singleton, List.mem_cons,
          Option.some.injEq]
        constructor
        · rintro ((h | (rfl | h0)) | ⟨h1, h2⟩)
          · exact Or.inl h
          · exact Or.inr ⟨Or.inl rfl, hd⟩
          · cases h0
          · exact Or.inr ⟨Or.inr h1, h2⟩
        · rintro (h | ⟨(rfl | h1), h2⟩)
          · exact Or.inl (Or.inl h)
          · exact Or.inl (Or.inr (Or.inl rfl))
          · exact Or.inr ⟨h1, h2⟩

/-- Membership form of collectSessions. -/
theorem collectSessions_mem (parsed : List (Option LocalSession))
    (s : LocalSession) :
    s ∈ collectSessions parsed ↔ some s ∈ parsed ∧ s.id ≠ "" := by
  rw [show collectSessions parsed = parsed.foldl (fun acc o =>
    match o with
    | some d => if !(d.id = "") then acc ++ [d] else acc
    | none => acc) [] from rfl, collectSessions_fold_mem]
  simp

/-- C7: the bulk sync set equals the parsed sessions with non-empty id minus
the already-synced set, where the already-synced set is the persisted
tracking record in new mode, the backend answer (empty on error or when
absent) in all mode, and empty in force mode; and force mode clears the
persisted tracking record first. -/
theorem c7_bulk_selection (mode : BulkMode) (tracking : List String)
    (parsed : List (Option LocalSession)) (remote : Option (List String))
    (s : LocalSession) :
    (s ∈ (runSyncSelection mode tracking parsed remote).2 ↔
      (some s ∈ parsed ∧ s.id ≠ "" ∧
        s.id ∉ (match mode with
          | BulkMode.new => tracking
          | BulkMode.all => remote.getD []
          | BulkMode.force => ([] : List String)))) ∧
    (runSyncSelection BulkMode.force tracking parsed remote).1 = [] := by
  refine ⟨?_, rfl⟩
  cases mode with
  | all =>
    show s ∈ (collectSessions parsed).filter
        (fun t => !((fetchBackendSessionIds remote).contains t.id)) ↔ _
    rw [List.mem_filter, collectSessions_mem]
    cases remote with
    | none => simp [fetchBackendSessionIds, and_assoc]
    | some ids => simp [fetchBackendSessionIds, and_assoc]
  | new =>
    show s ∈ (collectSessions parsed).filter
        (fun t => !(tracking.contains t.id)) ↔ _
    rw [List.mem_filter, collectSessions_mem]
    simp [and_assoc]
  | force =>
    show s ∈ (collectSessions parsed).filter
        (fun t => !(([] : List String).contains t.id)) ↔ _
    rw [List.mem_filter, collectSessions_mem]
    simp [and_assoc]

/-! ## Claim C8: a failed session submit in the bulk path -/

/-- The message submission loop of one session: it never touches the
newly-synced list or the failure counter, and appends exactly one
submit-message request per collected message, all carrying the session id. -/
theorem submitMessage_fold (sessId : String) (msgOk : String → Bool)
    (msgs : List LocalMessage) :
    ∀ b : BulkState,
      (msgs.foldl (submitMessage sessId msgOk) b).newlySyncedIds
        = b.newlySyncedIds ∧
      (msgs.foldl (submitMessage sessId msgOk) b).failedSessions
        = b.failedSessions ∧
      (msgs.foldl (submitMessage sessId msgOk) b).msgRequests
        = b.msgRequests ++ msgs.map (fun msg => (sessId, msg.id)) := by
  induction msgs with
  | nil => intro b; exact ⟨rfl, rfl, by simp⟩
  | cons msg rest ih =>
    intro b
    have h1 : (msg :: rest).foldl (submitMessage sessId msgOk) b
        = rest.foldl (submitMessage sessId msgOk)
            (submitMessage sessId msgOk b msg) := rfl
    obtain ⟨ha, hb, hc⟩ := ih (submitMessage sessId msgOk b msg)
    have hreq : (submitMessage sessId msgOk b msg).msgRequests
        = b.msgRequests ++ [(sessId, msg.id)] := by
      unfold submitMessage; split <;> rfl
    have hnew : (submitMessage sessId msgOk b msg).newlySyncedIds
        = b.newlySyncedIds := by
      unfold submitMessage; split <;> rfl
    have hfailed : (submitMessage sessId msgOk b msg).failedSessions
        = b.failedSessions := by
      unfold submitMessage; split <;> rfl
    rw [h1]
    refine ⟨by rw [ha, hnew], by rw [hb, hfailed], ?_⟩
    rw [hc, hreq]
    simp

/-- Induction core for C8 over the selected session list. -/
theorem runBulk_fold_c8 (sessionOk msgOk : String → Bool)
    (msgFiles : String → List (Option LocalMessage)) (sid : String)
    (hfail : sessionOk sid = false) (sessions : List LocalSession) :
    ∀ b : BulkState,
      ((∀ mid, (sid, mid) ∉ b.msgRequests) → ∀ mid, (sid, mid) ∉
        (sessions.foldl (processSession sessionOk msgOk msgFiles) b).msgRequests) ∧
      (sid ∉ b.newlySyncedIds → sid ∉
        (sessions.foldl (processSession sessionOk msgOk msgFiles) b).newlySyncedIds) ∧
      (sessions.foldl (processSession sessionOk msgOk msgFiles) b).failedSessions
        = b.failedSessions + (sessions.filter (fun t => !(sessionOk t.id))).length := by
  induction sessions with
  | nil => intro b; exact ⟨fun h => h, fun h => h, by simp⟩
  | cons sess rest ih =>
    intro b
    have hstep : (sess :: rest).foldl (processSession sessionOk msgOk msgFiles) b
        = rest.foldl (processSession sessionOk msgOk msgFiles)
            (processSession sessionOk msgOk msgFiles b sess) := rfl
    obtain ⟨iha, ihb, ihc⟩ := ih (processSession sessionOk msgOk msgFiles b sess)
    cases hok : sessionOk sess.id with
    | false =>
      have hp : processSession sessionOk msgOk msgFiles b sess
          = { b with failedSessions := b.failedSessions + 1 } := by
        unfold processSession; simp [hok]
      refine ⟨?_, ?_, ?_⟩
      · intro h
        rw [hstep]
        exact iha (by rw [hp]; exact h)
      · intro h
        rw [hstep]
        exact ihb (by rw [hp]; exact h)
      · rw [hstep, ihc, hp]
        show b.failedSessions + 1
            + (rest.filter (fun t => !(sessionOk t.id))).length
          = b.failedSessions
            + ((sess :: rest).filter (fun t => !(sessionOk t.id))).length
        rw [List.filter_cons_of_pos (by simp [hok]), List.length_cons]
        omega
    | true =>
      have hsid : sess.id ≠ sid := by
        intro he
        rw [he, hfail] at hok
        cases hok
      have hp : processSession sessionOk msgOk msgFiles b sess
          = (aggregateMessages sess.id (msgFiles sess.id)).messages.foldl
              (submitMessage sess.id msgOk)
              { b with
                syncedSessionCount := b.syncedSessionCount + 1,
                newlySyncedIds := b.newlySyncedIds ++ [sess.id] } := by
        unfold processSession; simp [hok]
      obtain ⟨ma, mb, mc⟩ := submitMessage_fold sess.id msgOk
        (aggregateMessages sess.id (msgFiles sess.id)).messages
        { b with
          syncedSessionCount := b.syncedSessionCount + 1,
          newlySyncedIds := b.newlySyncedIds ++ [sess.id] }
      refine ⟨?_, ?_, ?_⟩
      · intro h
        rw [hstep]
        refine iha ?_
        intro mid hmem
        rw [hp, mc] at hmem
        rcases List.mem_append.mp hmem with hmem | hmem
        · exact h mid hmem
        · rcases List.mem_map.mp hmem with ⟨msg, _, heq⟩
          exact hsid (congrArg Prod.fst heq)
      · intro h
        rw [hstep]
        refine ihb ?_
        rw [hp, ma]
        intro hmem
        rcases List.mem_append.mp hmem with hmem | hmem
        · exact h hmem
        · rcases List.mem_singleton.mp hmem with heq
          exact hsid heq.symm
      · rw [hstep, ihc, hp, mb,
          List.filter_cons_of_neg (by simp [hok])]

/-- C8: in the bulk path, for every session whose submit-session request
fails, no submit-message request is issued for any of that session's
messages, the failure is counted in the final summary, and the session id is
not added to the persisted tracking record, so its tracked status is exactly
what it was before the run. -/
theorem c8_failed_session_all_or_nothing (sessionOk msgOk : String → Bool)
    (msgFiles : String → List (Option LocalMessage))
    (sessions : List LocalSession) (sid : String) (old : List String)
    (hfail : sessionOk sid = false) :
    (∀ mid, (sid, mid) ∉ (runBulk sessionOk msgOk msgFiles sessions).msgRequests) ∧
    sid ∉ (runBulk sessionOk msgOk msgFiles sessions).newlySyncedIds ∧
    (runBulk sessionOk msgOk msgFiles sessions).failedSessions
      = (sessions.filter (fun t => !(sessionOk t.id))).length ∧
    (sid ∈ finalTracking old (runBulk sessionOk msgOk msgFiles sessions) ↔
      sid ∈ old) := by
  obtain ⟨ha, hb, hc⟩ :=
    runBulk_fold_c8 sessionOk msgOk msgFiles sid hfail sessions BulkState.init
  have h1 : ∀ mid, (sid, mid) ∉ (runBulk sessionOk msgOk msgFiles sessions).msgRequests :=
    ha (by intro mid h; cases h)
  have h2 : sid ∉ (runBulk sessionOk msgOk msgFiles sessions).newlySyncedIds :=
    hb (by intro h; cases h)
  refine ⟨h1, h2, ?_, ?_⟩
  · rw [show runBulk sessionOk msgOk msgFiles sessions
      = sessions.foldl (processSession sessionOk msgOk msgFiles) BulkState.init
      from rfl, hc]
    simp [BulkState.init]
  · unfold finalTracking
    simp [List.mem_append, h2]

/-- Witness for C8: one selected session whose submit fails; no message
requests, one counted failure, the tracking record unchanged. -/
theorem c8_failed_session_all_or_nothing_witness :
    ((fun _ => false) : String → Bool) "s1" = false ∧
    ((∀ mid, ("s1", mid) ∉ (runBulk (fun _ => false) (fun _ => true)
        (fun _ => []) [⟨"s1", none, none, none, none, none⟩]).msgRequests) ∧
      "s1" ∉ (runBulk (fun _ => false) (fun _ => true)
        (fun _ => []) [⟨"s1", none, none, none, none, none⟩]).newlySyncedIds ∧
      (runBulk (fun _ => false) (fun _ => true)
        (fun _ => []) [⟨"s1", none, none, none, none, none⟩]).failedSessions
        = (([⟨"s1", none, none, none, none, none⟩] : List LocalSession).filter
            (fun t => !((fun _ => false : String → Bool) t.id))).length ∧
      ("s1" ∈ finalTracking [] (runBulk (fun _ => false) (fun _ => true)
          (fun _ => []) [⟨"s1", none, none, none, none, none⟩]) ↔
        "s1" ∈ ([] : List String))) :=
  ⟨rfl, c8_failed_session_all_or_nothing (fun _ => false) (fun _ => true)
    (fun _ => []) [⟨"s1", none, none, none, none, none⟩] "s1" [] rfl⟩

/-! ## Claim C1: at most one forward per message id, release on forward -/

/-- Appending a request for a different id leaves the count unchanged. -/
theorem msgCount_append_ne (m : String) (l : List MsgRequest) (r : MsgRequest)
    (hr : r.externalId ≠ m) : msgCount m (l ++ [r]) = msgCount m l := by
  simp [msgCount, List.filter_append, hr]

/-- Appending a request for the id increments the count by one. -/
theorem msgCount_append_eq (m : String) (l : List MsgRequest) (r : MsgRequest)
    (hr : r.externalId = m) : msgCount m (l ++ [r]) = msgCount m l + 1 := by
  simp [msgCount, List.filter_append, hr]

/-- Invariant tying the forward count of an id to its dedup-set membership. -/
def syncBound (m : String) (s : PState) : Prop :=
  msgCount m s.sent ≤ (if s.syncedMessages.contains m then 1 else 0)

/-- The invariant holds initially. -/
theorem syncBound_init (m : String) : syncBound m initState := by
  simp [syncBound, initState, msgCount]

/-- One step preserves the invariant. -/
theorem syncBound_step (m : String) (a : Act) (s : PState)
    (h : syncBound m s) : syncBound m (stepA a s) := by
  cases a with
  | ev e =>
    obtain ⟨h1, h2, _, _⟩ := handleEvent_frame e s
    show syncBound m (handleEvent e s)
    unfold syncBound at h ⊢
    rw [h1, h2]
    exact h
  | setConfig c => exact h
  | fire m' =>
    show syncBound m (fireTimer m' s)
    unfold fireTimer
    split
    · exact h
    · rcases trySyncMessage_cases m' { s with
        pending := s.pending.filter (fun t => !(t.msgId = m')),
        attempts := s.attempts ++ [m'] } with heq | ⟨hns, hsy, _, _, _, hsent⟩
      · rw [heq]; exact h
      · unfold syncBound at h ⊢
        by_cases hmm : m' = m
        · subst hmm
          have hc0 : s.syncedMessages.contains m' = false := hns
          rw [hc0] at h
          have h0 : msgCount m' s.sent = 0 := Nat.le_zero.mp (by simpa using h)
          rw [hsy]
          have hct : ((m' :: s.syncedMessages).contains m') = true := by simp
          rw [hct]
          rcases hsent with he | ⟨r, hr, he⟩
          · rw [he]
            show msgCount m' s.sent ≤ 1
            omega
          · rw [he]
            show msgCount m' (s.sent ++ [r]) ≤ 1
            rw [msgCount_append_eq m' s.sent r hr, h0]
        · rw [hsy]
          have hct : ((m' :: s.syncedMessages).contains m)
              = s.syncedMessages.contains m := by
            simp [List.contains_cons, Ne.symm hmm]
          rw [hct]
          rcases hsent with he | ⟨r, hr, he⟩
          · rw [he]; exact h
          · rw [he]
            show msgCount m (s.sent ++ [r]) ≤ _
            rw [msgCount_append_ne m s.sent r (by rw [hr]; exact hmm)]
            exact h

/-- The invariant is preserved by any action sequence. -/
theorem syncBound_run (m : String) (acts : List Act) :
    ∀ s : PState, syncBound m s → syncBound m (runA acts s) := by
  induction acts with
  | nil => intro s h; exact h
  | cons a rest ih =>
    intro s h
    exact ih (stepA a s) (syncBound_step m a s h)

/-- A change of the forward count in one step releases the buffers of the id:
the step must be a timer expiry that forwarded exactly this id, and that
branch erases all three buffer entries. -/
theorem sent_change_release (m : String) (a : Act) (s : PState)
    (hne : msgCount m (stepA a s).sent ≠ msgCount m s.sent) :
    alookup m (stepA a s).messagePartsText = none ∧
    alookup m (stepA a s).messageToolParts = none ∧
    alookup m (stepA a s).messageMetadata = none := by
  cases a with
  | ev e =>
    obtain ⟨h1, _, _, _⟩ := handleEvent_frame e s
    exact absurd (by rw [show stepA (Act.ev e) s = handleEvent e s from rfl, h1])
      hne
  | setConfig c => exact absurd rfl hne
  | fire m' =>
    revert hne
    show msgCount m (fireTimer m' s).sent ≠ msgCount m s.sent →
        alookup m (fireTimer m' s).messagePartsText = none ∧
        alookup m (fireTimer m' s).messageToolParts = none ∧
        alookup m (fireTimer m' s).messageMetadata = none
    unfold fireTimer
    split
    · intro hne; exact absurd rfl hne
    · intro hne
      rcases trySyncMessage_cases m' { s with
        pending := s.pending.filter (fun t => !(t.msgId = m')),
        attempts := s.attempts ++ [m'] } with heq | ⟨_, _, hbp, hbt, hbm, hsent⟩
      · rw [heq] at hne ⊢
        exact absurd rfl hne
      · rcases hsent with he | ⟨r, hr, he⟩
        · rw [he] at hne
          exact absurd rfl hne
        · by_cases hmm : m' = m
          · subst hmm
            exact ⟨hbp, hbt, hbm⟩
          · rw [he] at hne
            rw [show ({ s with
              pending := s.pending.filter (fun t => !(t.msgId = m')),
              attempts := s.attempts ++ [m'] } : PState).sent = s.sent from rfl]
              at hne
            exact absurd (msgCount_append_ne m s.sent r (by rw [hr]; exact hmm))
              hne

/-- C1: over every action sequence of one process lifetime, a message id is
forwarded at most once; and any step that forwards an id releases its
buffered text, tool parts, and metadata. -/
theorem c1_forward_at_most_once (acts : List Act) (a : Act) (m : String) :
    msgCount m (runA acts initState).sent ≤ 1 ∧
    (msgCount m (runA (acts ++ [a]) initState).sent
        ≠ msgCount m (runA acts initState).sent →
      alookup m (runA (acts ++ [a]) initState).messagePartsText = none ∧
      alookup m (runA (acts ++ [a]) initState).messageToolParts = none ∧
      alookup m (runA (acts ++ [a]) initState).messageMetadata = none) := by
  have hb := syncBound_run m acts initState (syncBound_init m)
  have hsplit : runA (acts ++ [a]) initState = stepA a (runA acts initState) := by
    unfold runA
    rw [List.foldl_append]
    rfl
  constructor
  · unfold syncBound at hb
    split at hb
    · exact hb
    · exact le_trans hb (by omega)
  · intro hne
    rw [hsplit] at hne ⊢
    exact sent_change_release m a (runA acts initState) hne

/-- Witness for C1: configure, buffer one text part, then let the debounce
timer expire; the forward count changes and the buffers are released. -/
theorem c1_forward_at_most_once_witness :
    msgCount "m1" (runA ([Act.setConfig (some ⟨"https://x.convex.cloud", "osk_k"⟩),
        Act.ev (Event.partText "m1" "s1" (some "Fix the bug"))]
        ++ [Act.fire "m1"]) initState).sent
      ≠ msgCount "m1" (runA [Act.setConfig (some ⟨"https://x.convex.cloud", "osk_k"⟩),
        Act.ev (Event.partText "m1" "s1" (some "Fix the bug"))] initState).sent ∧
    msgCount "m1" (runA [Act.setConfig (some ⟨"https://x.convex.cloud", "osk_k"⟩),
        Act.ev (Event.partText "m1" "s1" (some "Fix the bug"))] initState).sent ≤ 1 ∧
    (alookup "m1" (runA ([Act.setConfig (some ⟨"https://x.convex.cloud", "osk_k"⟩),
        Act.ev (Event.partText "m1" "s1" (some "Fix the bug"))]
        ++ [Act.fire "m1"]) initState).messagePartsText = none ∧
     alookup "m1" (runA ([Act.setConfig (some ⟨"https://x.convex.cloud", "osk_k"⟩),
        Act.ev (Event.partText "m1" "s1" (some "Fix the bug"))]
        ++ [Act.fire "m1"]) initState).messageToolParts = none ∧
     alookup "m1" (runA ([Act.setConfig (some ⟨"https://x.convex.cloud", "osk_k"⟩),
        Act.ev (Event.partText "m1" "s1" (some "Fix the bug"))]
        ++ [Act.fire "m1"]) initState).messageMetadata = none) :=
  ⟨by decide,
   (c1_forward_at_most_once [Act.setConfig (some ⟨"https://x.convex.cloud", "osk_k"⟩),
      Act.ev (Event.partText "m1" "s1" (some "Fix the bug"))] (Act.fire "m1") "m1").1,
   (c1_forward_at_most_once [Act.setConfig (some ⟨"https://x.convex.cloud", "osk_k"⟩),
      Act.ev (Event.partText "m1" "s1" (some "Fix the bug"))] (Act.fire "m1") "m1").2
     (by decide)⟩

/-! ## Claim C10: missing configuration at debounce expiry drops the message -/

/-- At a qualifying expiry with missing or incomplete configuration,
trySyncMessage still marks the id synced and erases all three buffers while
issuing nothing: the config check sits inside doSyncMessage, after the dedup
mark and before nothing else observable. -/
theorem trySyncMessage_drop_of_no_config (m : String) (s : PState)
    (hcfg : configOk s.config = false)
    (hsync : s.syncedMessages.contains m = false)
    (hmeta : (alookup m s.messageMetadata).isSome = true)
    (htext : jsTrimEmpty (bufferedText m s) = false) :
    trySyncMessage m s = { s with
      syncedMessages := m :: s.syncedMessages,
      messagePartsText := aerase m s.messagePartsText,
      messageToolParts := aerase m s.messageToolParts,
      messageMetadata := aerase m s.messageMetadata } := by
  have htext' : jsTrimEmpty (joinParts ((alookup m s.messagePartsText).getD []))
      = false := htext
  have hne : ((alookup m s.messagePartsText).getD []).isEmpty = false := by
    cases hl : (alookup m s.messagePartsText).getD [] with
    | nil =>
      rw [hl] at htext'
      exact absurd htext' (by simp [joinParts, jsTrimEmpty])
    | cons c cs => rfl
  simp only [trySyncMessage]
  split
  · rename_i hc
    rw [hsync] at hc
    cases hc
  · split
    · rename_i hnone
      rw [hnone] at hmeta
      cases hmeta
    · rename_i md hmd
      split
      · rename_i hcond
        rw [hne] at hcond
        simp at hcond
      · split
        · rename_i hcond2
          rw [htext'] at hcond2
          simp at hcond2
        · have hdo : doSyncMessage md.sessionId m md.role
              (joinParts ((alookup m s.messagePartsText).getD []))
              md.info (alookup m s.messageToolParts)
              { s with syncedMessages := m :: s.syncedMessages }
              = { s with syncedMessages := m :: s.syncedMessages } := by
            unfold doSyncMessage
            rw [if_pos (by simp [hcfg])]
          rw [hdo]

/-- A message id already marked synced keeps its membership and its forward
count across any single action. -/
theorem synced_preserved_step (m : String) (a : Act) (s : PState)
    (h : s.syncedMessages.contains m = true) :
    (stepA a s).syncedMessages.contains m = true ∧
    msgCount m (stepA a s).sent = msgCount m s.sent := by
  cases a with
  | ev e =>
    obtain ⟨h1, h2, _, _⟩ := handleEvent_frame e s
    show (handleEvent e s).syncedMessages.contains m = true ∧
      msgCount m (handleEvent e s).sent = msgCount m s.sent
    rw [h1, h2]
    exact ⟨h, rfl⟩
  | setConfig c => exact ⟨h, rfl⟩
  | fire m' =>
    show (fireTimer m' s).syncedMessages.contains m = true ∧
      msgCount m (fireTimer m' s).sent = msgCount m s.sent
    unfold fireTimer
    split
    · exact ⟨h, rfl⟩
    · show (trySyncMessage m' { s with
          pending := s.pending.filter (fun t => !(t.msgId = m')),
          attempts := s.attempts ++ [m'] }).syncedMessages.contains m = true ∧
        msgCount m (trySyncMessage m' { s with
          pending := s.pending.filter (fun t => !(t.msgId = m')),
          attempts := s.attempts ++ [m'] }).sent = msgCount m s.sent
      by_cases hmm : m' = m
      · subst hmm
        rw [trySyncMessage_of_synced m' { s with
          pending := s.pending.filter (fun t => !(t.msgId = m')),
          attempts := s.attempts ++ [m'] } h]
        exact ⟨h, rfl⟩
      · rcases trySyncMessage_cases m' { s with
          pending := s.pending.filter (fun t => !(t.msgId = m')),
          attempts := s.attempts ++ [m'] } with heq | ⟨_, hsy, _, _, _, hsent⟩
        · rw [heq]
          exact ⟨h, rfl⟩
        · constructor
          · rw [hsy, List.contains_cons]
            rw [show ({ s with
              pending := s.pending.filter (fun t => !(t.msgId = m')),
              attempts := s.attempts ++ [m'] } : PState).syncedMessages
              = s.syncedMessages from rfl, h]
            simp
          · rcases hsent with he | ⟨r, hr, he⟩
            · rw [he]
            · rw [he]
              exact msgCount_append_ne m s.sent r (by rw [hr]; exact hmm)

/-- A synced id is never forwarded again over any action sequence. -/
theorem synced_preserved_run (m : String) (acts : List Act) :
    ∀ s : PState, s.syncedMessages.contains m = true →
      msgCount m (runA acts s).sent = msgCount m s.sent := by
  induction acts with
  | nil => intro s _; rfl
  | cons a rest ih =>
    intro s h
    obtain ⟨h1, h2⟩ := synced_preserved_step m a s h
    have := ih (stepA a s) h1
    rw [show runA (a :: rest) s = runA rest (stepA a s) from rfl, this, h2]

/-- C10: if the stored configuration lacks an API key or Convex URL when a
debounce timer expires with metadata present and non-empty trimmed text
buffered for a not-yet-synced id, the id is still added to the synced set and
all its buffers are deleted, no request is issued, and the message is never
forwarded by any later actions, configuration changes and further events
included. -/
theorem c10_no_config_drops_message (s : PState) (m : String) (acts : List Act)
    (hcfg : configOk s.config = false)
    (hsync : s.syncedMessages.contains m = false)
    (hmeta : (alookup m s.messageMetadata).isSome = true)
    (htext : jsTrimEmpty (bufferedText m s) = false)
    (hpend : pendingFor m s.pending ≠ none) :
    (fireTimer m s).syncedMessages.contains m = true ∧
    alookup m (fireTimer m s).messagePartsText = none ∧
    alookup m (fireTimer m s).messageToolParts = none ∧
    alookup m (fireTimer m s).messageMetadata = none ∧
    (fireTimer m s).sent = s.sent ∧
    msgCount m (runA acts (fireTimer m s)).sent = msgCount m s.sent := by
  have hstep : fireTimer m s = { s with
      syncedMessages := m :: s.syncedMessages,
      messagePartsText := aerase m s.messagePartsText,
      messageToolParts := aerase m s.messageToolParts,
      messageMetadata := aerase m s.messageMetadata,
      pending := s.pending.filter (fun t => !(t.msgId = m)),
      attempts := s.attempts ++ [m] } := by
    unfold fireTimer
    split
    · rename_i hnone; exact absurd hnone hpend
    · show trySyncMessage m { s with
        pending := s.pending.filter (fun t => !(t.msgId = m)),
        attempts := s.attempts ++ [m] } = _
      rw [trySyncMessage_drop_of_no_config m { s with
        pending := s.pending.filter (fun t => !(t.msgId = m)),
        attempts := s.attempts ++ [m] } hcfg hsync hmeta htext]
  rw [hstep]
  refine ⟨by simp, alookup_aerase_self m _, alookup_aerase_self m _,
    alookup_aerase_self m _, rfl, ?_⟩
  exact synced_preserved_run m acts _ (by simp)

/-- Witness for C10: a text part buffered with no configuration stored; at
expiry the id is marked synced with buffers erased and no request, and later
configuration plus further events never produce a forward. -/
theorem c10_no_config_drops_message_witness :
    configOk (runEvents [Event.partText "m1" "s1" (some "Fix")] initState).config = false ∧
    (runEvents [Event.partText "m1" "s1" (some "Fix")] initState).syncedMessages.contains "m1" = false ∧
    ((alookup "m1" (runEvents [Event.partText "m1" "s1" (some "Fix")] initState).messageMetadata).isSome = true) ∧
    jsTrimEmpty (bufferedText "m1" (runEvents [Event.partText "m1" "s1" (some "Fix")] initState)) = false ∧
    pendingFor "m1" (runEvents [Event.partText "m1" "s1" (some "Fix")] initState).pending ≠ none ∧
    ((fireTimer "m1" (runEvents [Event.partText "m1" "s1" (some "Fix")] initState)).syncedMessages.contains "m1" = true ∧
     alookup "m1" (fireTimer "m1" (runEvents [Event.partText "m1" "s1" (some "Fix")] initState)).messagePartsText = none ∧
     alookup "m1" (fireTimer "m1" (runEvents [Event.partText "m1" "s1" (some "Fix")] initState)).messageToolParts = none ∧
     alookup "m1" (fireTimer "m1" (runEvents [Event.partText "m1" "s1" (some "Fix")] initState)).messageMetadata = none ∧
     (fireTimer "m1" (runEvents [Event.partText "m1" "s1" (some "Fix")] initState)).sent =
       (runEvents [Event.partText "m1" "s1" (some "Fix")] initState).sent ∧
     msgCount "m1" (runA [Act.setConfig (some ⟨"https://x.convex.cloud", "osk_k"⟩),
        Act.ev (Event.partText "m1" "s1" (some "Fix again")), Act.fire "m1"]
        (fireTimer "m1" (runEvents [Event.partText "m1" "s1" (some "Fix")] initState))).sent
       = msgCount "m1" (runEvents [Event.partText "m1" "s1" (some "Fix")] initState).sent) :=
  ⟨by decide, by decide, by decide, by decide, by decide,
   c10_no_config_drops_message
     (runEvents [Event.partText "m1" "s1" (some "Fix")] initState) "m1"
     [Act.setConfig (some ⟨"https://x.convex.cloud", "osk_k"⟩),
      Act.ev (Event.partText "m1" "s1" (some "Fix again")), Act.fire "m1"]
     (by decide) (by decide) (by decide) (by decide) (by decide)⟩

/-! ## Claim C5: debounce timers -/

/-- doSyncMessage never allocates a timer id. -/
@[simp] theorem doSyncMessage_nextTimerId (a b c d : String) (i : MsgInfo)
    (p : Option (List ToolPart)) (s : PState) :
    (doSyncMessage a b c d i p s).nextTimerId = s.nextTimerId := by
  unfold doSyncMessage; split
  · rfl
  · split <;> rfl

/-- trySyncMessage never touches the timer map. -/
@[simp] theorem trySyncMessage_pending (m : String) (s : PState) :
    (trySyncMessage m s).pending = s.pending := by
  simp only [trySyncMessage]
  split
  · rfl
  · split
    · rfl
    · split
      · rfl
      · split
        · rfl
        · simp

/-- trySyncMessage never records a timer-expiry attempt itself. -/
@[simp] theorem trySyncMessage_attempts (m : String) (s : PState) :
    (trySyncMessage m s).attempts = s.attempts := by
  simp only [trySyncMessage]
  split
  · rfl
  · split
    · rfl
    · split
      · rfl
      · split
        · rfl
        · simp

/-- trySyncMessage never allocates a timer id. -/
@[simp] theorem trySyncMessage_nextTimerId (m : String) (s : PState) :
    (trySyncMessage m s).nextTimerId = s.nextTimerId := by
  simp only [trySyncMessage]
  split
  · rfl
  · split
    · rfl
    · split
      · rfl
      · split
        · rfl
        · simp

/-- No timer for an id survives the cancel filter of its own key. -/
theorem pendingFor_filter_self (m : String) (l : List PendingTimer) :
    pendingFor m (l.filter (fun t => !(t.msgId = m))) = none := by
  induction l with
  | nil => rfl
  | cons t rest ih =>
    by_cases ht : t.msgId = m
    · rw [List.filter_cons_of_neg (by simp [ht])]
      exact ih
    · rw [List.filter_cons_of_pos (by simp [ht])]
      simp [pendingFor, ht, ih]

/-- Timer count for an id after the cancel filter of its own key. -/
theorem pendCount_filter_self (m : String) (l : List PendingTimer) :
    pendCount m (l.filter (fun t => !(t.msgId = m))) = 0 := by
  induction l with
  | nil => rfl
  | cons t rest ih =>
    by_cases ht : t.msgId = m
    · rw [List.filter_cons_of_neg (by simp [ht])]
      exact ih
    · rw [List.filter_cons_of_pos (by simp [ht])]
      simp only [pendCount, List.filter] at ih ⊢
      rw [show decide (t.msgId = m) = false from by simp [ht]]
      exact ih

/-- The cancel filter of one key never increases another key's timer count. -/
theorem pendCount_filter_le (m m' : String) (l : List PendingTimer) :
    pendCount m (l.filter (fun t => !(t.msgId = m'))) ≤ pendCount m l := by
  induction l with
  | nil => exact Nat.le_refl 0
  | cons t rest ih =>
    by_cases ht : t.msgId = m'
    · rw [List.filter_cons_of_neg (by simp [ht])]
      refine le_trans ih ?_
      by_cases htm : t.msgId = m
      · simp [pendCount, htm]
      · simp [pendCount, htm]
    · rw [List.filter_cons_of_pos (by simp [ht])]
      by_cases htm : t.msgId = m
      · simpa [pendCount, htm] using ih
      · simpa [pendCount, htm] using ih

/-- Timer count after a schedule: exactly one for the scheduled key, the
previous count for any other key. -/
theorem pendCount_schedule (m m' : String) (s : PState) :
    pendCount m (scheduleSyncMessage m' s).pending
      = if m' = m then 1 else pendCount m s.pending := by
  show pendCount m (⟨m', s.nextTimerId, DEBOUNCE_MS⟩ ::
    s.pending.filter (fun t => !(t.msgId = m'))) = _
  by_cases hm : m' = m
  · rw [if_pos hm]
    show (List.filter (fun t => t.msgId = m) (⟨m', s.nextTimerId, DEBOUNCE_MS⟩ ::
      s.pending.filter (fun t => !(t.msgId = m')))).length = 1
    rw [List.filter_cons_of_pos (by simp [hm])]
    have h0 := pendCount_filter_self m s.pending
    rw [show (fun t => !(t.msgId = m')) = (fun t : PendingTimer => !(t.msgId = m))
      from by rw [hm]]
    simp only [pendCount] at h0
    simp [h0]
  · rw [if_neg hm]
    have hne : pendCount m (s.pending.filter (fun t => !(t.msgId = m')))
        = pendCount m s.pending := by
      induction s.pending with
      | nil => rfl
      | cons t rest ih =>
        by_cases ht : t.msgId = m'
        · rw [List.filter_cons_of_neg (by simp [ht])]
          have htm : ¬ (t.msgId = m) := by rw [ht]; exact hm
          simpa [pendCount, htm] using ih
        · rw [List.filter_cons_of_pos (by simp [ht])]
          by_cases htm : t.msgId = m
          · simpa [pendCount, htm] using ih
          · simpa [pendCount, htm] using ih
    show (List.filter (fun t => t.msgId = m) (⟨m', s.nextTimerId, DEBOUNCE_MS⟩ ::
      s.pending.filter (fun t => !(t.msgId = m')))).length = _
    rw [List.filter_cons_of_neg (by simp [hm])]
    exact hne

/-- Events that always reschedule the debounce timer of a given message id:
text and tool part events carrying that id with both ids present. -/
def isSchedEventFor (m : String) : Event → Bool
  | .partText mid sid _ => mid = m && !(mid = "") && !(sid = "")
  | .partTool mid sid _ _ _ _ => mid = m && !(mid = "") && !(sid = "")
  | _ => false

/-- A scheduling event cancels any registered timer of the id and arms a
fresh one carrying the debounce delay, without running any sync attempt. -/
theorem handleEvent_sched (m : String) (e : Event) (s : PState)
    (he : isSchedEventFor m e = true) :
    (handleEvent e s).pending = ⟨m, s.nextTimerId, DEBOUNCE_MS⟩ ::
      s.pending.filter (fun t => !(t.msgId = m)) ∧
    (handleEvent e s).nextTimerId = s.nextTimerId + 1 ∧
    (handleEvent e s).attempts = s.attempts := by
  cases e with
  | partText mid sid text =>
    simp only [isSchedEventFor, Bool.and_eq_true, decide_eq_true_eq,
      Bool.not_eq_true', decide_eq_false_iff_not] at he
    obtain ⟨⟨h1, h2⟩, h3⟩ := he
    subst h1
    simp [handleEvent, h2, h3, scheduleSyncMessage]
  | partTool mid sid pid tool args status =>
    simp only [isSchedEventFor, Bool.and_eq_true, decide_eq_true_eq,
      Bool.not_eq_true', decide_eq_false_iff_not] at he
    obtain ⟨⟨h1, h2⟩, h3⟩ := he
    subst h1
    simp [handleEvent, h2, h3, scheduleSyncMessage]
  | sessionCreated info => exact absurd he (by simp [isSchedEventFor])
  | sessionUpdated info => exact absurd he (by simp [isSchedEventFor])
  | sessionIdle info => exact absurd he (by simp [isSchedEventFor])
  | messageUpdated info => exact absurd he (by simp [isSchedEventFor])
  | partOther mid sid => exact absurd he (by simp [isSchedEventFor])
  | unknownEvent => exact absurd he (by simp [isSchedEventFor])

/-- A metadata event with complete info reschedules the timer exactly when
text content is already buffered for the id; otherwise it leaves the timer
state untouched. -/
theorem handleEvent_metadata_pending (info : MsgInfo) (s : PState)
    (hid : info.id ≠ "") (hsid : info.sessionID ≠ "") (hrole : info.role ≠ "") :
    ((alookup info.id s.messagePartsText).isSome = true →
      (handleEvent (Event.messageUpdated info) s).pending
        = ⟨info.id, s.nextTimerId, DEBOUNCE_MS⟩ ::
          s.pending.filter (fun t => !(t.msgId = info.id)) ∧
      (handleEvent (Event.messageUpdated info) s).nextTimerId
        = s.nextTimerId + 1) ∧
    ((alookup info.id s.messagePartsText).isSome = false →
      (handleEvent (Event.messageUpdated info) s).pending = s.pending ∧
      (handleEvent (Event.messageUpdated info) s).nextTimerId
        = s.nextTimerId) := by
  constructor
  · intro hbuf
    simp [handleEvent, hid, hsid, hrole, hbuf, scheduleSyncMessage]
  · intro hbuf
    simp [handleEvent, hid, hsid, hrole, hbuf]

/-- Every event either leaves the timer map untouched or replaces one id's
timer with a single fresh one. -/
theorem handleEvent_pending_cases (e : Event) (s : PState) :
    (handleEvent e s).pending = s.pending ∨
    ∃ mid, (handleEvent e s).pending
      = ⟨mid, s.nextTimerId, DEBOUNCE_MS⟩ ::
        s.pending.filter (fun t => !(t.msgId = mid)) := by
  cases e with
  | sessionCreated info =>
    by_cases h : info.id = "" <;> by_cases h2 : info.id ∈ s.syncedSessions <;>
      exact Or.inl (by simp [handleEvent, h, h2])
  | sessionUpdated info =>
    by_cases h : info.id = "" <;> exact Or.inl (by simp [handleEvent, h])
  | sessionIdle info =>
    by_cases h : info.id = "" <;> exact Or.inl (by simp [handleEvent, h])
  | messageUpdated info =>
    by_cases h : info.id = "" ∨ info.sessionID = "" ∨ info.role = ""
    · refine Or.inl ?_
      rcases h with h | h | h
      · simp [handleEvent, h]
      · simp [handleEvent, h]
      · simp [handleEvent, h]
    · push_neg at h
      obtain ⟨h1, h2, h3⟩ := h
      by_cases hbuf : (alookup info.id s.messagePartsText).isSome = true
      · exact Or.inr ⟨info.id,
          ((handleEvent_metadata_pending info s h1 h2 h3).1 hbuf).1⟩
      · exact Or.inl ((handleEvent_metadata_pending info s h1 h2 h3).2
          (by simpa using hbuf)).1
  | partText mid sid text =>
    by_cases h1 : mid = ""
    · exact Or.inl (by simp [handleEvent, h1])
    · by_cases h2 : sid = ""
      · exact Or.inl (by simp [handleEvent, h1, h2])
      · exact Or.inr ⟨mid, (handleEvent_sched mid _ s
          (by simp [isSchedEventFor, h1, h2])).1⟩
  | partTool mid sid pid tool args status =>
    by_cases h1 : mid = ""
    · exact Or.inl (by simp [handleEvent, h1])
    · by_cases h2 : sid = ""
      · exact Or.inl (by simp [handleEvent, h1, h2])
      · exact Or.inr ⟨mid, (handleEvent_sched mid _ s
          (by simp [isSchedEventFor, h1, h2])).1⟩
  | partOther mid sid =>
    by_cases h1 : mid = "" <;> by_cases h2 : sid = "" <;>
      exact Or.inl (by simp [handleEvent, h1, h2])
  | unknownEvent => exact Or.inl rfl

/-- One step preserves the at-most-one-timer-per-id bound. -/
theorem pendOne_step (m : String) (a : Act) (s : PState)
    (h : pendCount m s.pending ≤ 1) : pendCount m (stepA a s).pending ≤ 1 := by
  cases a with
  | ev e =>
    show pendCount m (handleEvent e s).pending ≤ 1
    rcases handleEvent_pending_cases e s with heq | ⟨mid, heq⟩
    · rw [heq]; exact h
    · rw [heq]
      by_cases hm : mid = m
      · subst hm
        show (List.filter (fun t => t.msgId = mid)
          (⟨mid, s.nextTimerId, DEBOUNCE_MS⟩ ::
            s.pending.filter (fun t => !(t.msgId = mid)))).length ≤ 1
        rw [List.filter_cons_of_pos (by simp)]
        have h0 := pendCount_filter_self mid s.pending
        simp only [pendCount] at h0
        simp [h0]
      · show (List.filter (fun t => t.msgId = m)
          (⟨mid, s.nextTimerId, DEBOUNCE_MS⟩ ::
            s.pending.filter (fun t => !(t.msgId = mid)))).length ≤ 1
        rw [List.filter_cons_of_neg (by simp [hm])]
        exact le_trans (pendCount_filter_le m mid s.pending) h
  | setConfig c => exact h
  | fire m' =>
    show pendCount m (fireTimer m' s).pending ≤ 1
    unfold fireTimer
    split
    · exact h
    · rw [trySyncMessage_pending]
      show pendCount m (s.pending.filter (fun t => !(t.msgId = m'))) ≤ 1
      exact le_trans (pendCount_filter_le m m' s.pending) h

/-- The at-most-one-timer bound holds in every reachable state. -/
theorem pendOne_run (m : String) (acts : List Act) :
    ∀ s : PState, pendCount m s.pending ≤ 1 →
      pendCount m (runA acts s).pending ≤ 1 := by
  induction acts with
  | nil => intro s h; exact h
  | cons a rest ih =>
    intro s h
    exact ih (stepA a s) (pendOne_step m a s h)

/-- Attempts are untouched by event processing. -/
theorem runEvents_attempts (evs : List Event) :
    ∀ s : PState, (runEvents evs s).attempts = s.attempts := by
  induction evs with
  | nil => intro s; rfl
  | cons e rest ih =>
    intro s
    obtain ⟨_, _, ha, _⟩ := handleEvent_frame e s
    rw [show runEvents (e :: rest) s = runEvents rest (handleEvent e s) from rfl,
      ih (handleEvent e s), ha]

/-- After a nonempty burst of scheduling events for one id, the timer map
holds exactly one fresh timer for that id at its head, over a remainder with
no timer for the id. -/
theorem sched_run_shape (m : String) (evs : List Event) :
    ∀ s : PState, evs ≠ [] → (∀ e ∈ evs, isSchedEventFor m e = true) →
      ∃ (tid : Nat) (l' : List PendingTimer), (runEvents evs s).pending
        = ⟨m, tid, DEBOUNCE_MS⟩ :: l'.filter (fun t => !(t.msgId = m)) := by
  induction evs with
  | nil => intro s h; exact absurd rfl h
  | cons e rest ih =>
    intro s _ hall
    have he : isSchedEventFor m e = true := hall e (List.mem_cons_self e rest)
    obtain ⟨hp, _, _⟩ := handleEvent_sched m e s he
    cases rest with
    | nil => exact ⟨s.nextTimerId, s.pending, hp⟩
    | cons e2 rest2 =>
      exact ih (handleEvent e s) (List.cons_ne_nil e2 rest2)
        (fun x hx => hall x (List.mem_cons_of_mem _ hx))

/-- A fire on an id with a registered timer records exactly one attempt and
clears the id's timer. -/
theorem fireTimer_fires (m : String) (s : PState) (t : PendingTimer)
    (hp : pendingFor m s.pending = some t) :
    (fireTimer m s).attempts = s.attempts ++ [m] ∧
    pendingFor m (fireTimer m s).pending = none := by
  unfold fireTimer
  split
  · rename_i hnone; rw [hnone] at hp; cases hp
  · constructor
    · rw [trySyncMessage_attempts]
    · rw [trySyncMessage_pending]
      exact pendingFor_filter_self m s.pending

/-- C5 (amended): every text or tool part event for a message id with both
ids present cancels any pending debounce timer of the id and schedules one
fresh timer armed with the 800 ms debounce delay; a metadata event does so
only when text content is already buffered for the id, and otherwise leaves
the timer state untouched; every id owns at most one active timer in every
reachable state; and a nonempty burst of scheduling events for one id with no
expiry in between leaves exactly one pending timer, produces no attempt
during the burst, and its single expiry produces exactly one sync attempt,
over the buffered state left by the last event. -/
theorem c5_debounce_amended :
    (∀ (s : PState) (e : Event) (m : String), isSchedEventFor m e = true →
      pendingFor m (handleEvent e s).pending
        = some ⟨m, s.nextTimerId, DEBOUNCE_MS⟩ ∧
      (handleEvent e s).nextTimerId = s.nextTimerId + 1) ∧
    (∀ (s : PState) (info : MsgInfo), info.id ≠ "" → info.sessionID ≠ "" →
      info.role ≠ "" →
      ((alookup info.id s.messagePartsText).isSome = true →
        pendingFor info.id (handleEvent (Event.messageUpdated info) s).pending
          = some ⟨info.id, s.nextTimerId, DEBOUNCE_MS⟩) ∧
      ((alookup info.id s.messagePartsText).isSome = false →
        (handleEvent (Event.messageUpdated info) s).pending = s.pending)) ∧
    (∀ (acts : List Act) (m : String),
      pendCount m (runA acts initState).pending ≤ 1) ∧
    (∀ (s : PState) (m : String) (evs : List Event), evs ≠ [] →
      (∀ e ∈ evs, isSchedEventFor m e = true) →
      pendCount m (runEvents evs s).pending = 1 ∧
      (runEvents evs s).attempts = s.attempts ∧
      (fireTimer m (runEvents evs s)).attempts = s.attempts ++ [m] ∧
      pendingFor m (fireTimer m (runEvents evs s)).pending = none) ∧
    DEBOUNCE_MS = 800 := by
  refine ⟨?_, ?_, ?_, ?_, rfl⟩
  · intro s e m he
    obtain ⟨hp, hn, _⟩ := handleEvent_sched m e s he
    refine ⟨?_, hn⟩
    rw [hp]
    simp [pendingFor]
  · intro s info h1 h2 h3
    obtain ⟨ha, hb⟩ := handleEvent_metadata_pending info s h1 h2 h3
    refine ⟨?_, fun hbuf => (hb hbuf).1⟩
    intro hbuf
    rw [(ha hbuf).1]
    simp [pendingFor]
  · intro acts m
    exact pendOne_run m acts initState (by simp [initState, pendCount])
  · intro s m evs hne hall
    obtain ⟨tid, l', hshape⟩ := sched_run_shape m evs s hne hall
    have hfor : pendingFor m (runEvents evs s).pending
        = some ⟨m, tid, DEBOUNCE_MS⟩ := by
      rw [hshape]
      simp [pendingFor]
    have hatt := runEvents_attempts evs s
    obtain ⟨hfa, hfp⟩ := fireTimer_fires m (runEvents evs s) _ hfor
    refine ⟨?_, hatt, by rw [hfa, hatt], hfp⟩
    rw [hshape]
    show (List.filter (fun t => t.msgId = m) (⟨m, tid, DEBOUNCE_MS⟩ ::
      l'.filter (fun t => !(t.msgId = m)))).length = 1
    rw [List.filter_cons_of_pos (by simp)]
    have h0 := pendCount_filter_self m l'
    simp only [pendCount] at h0
    simp [h0]

/-- Counterexample to C5 as stated: a tool part event arms timer 0 for the
id; the following complete metadata event for the same id leaves that timer
untouched instead of canceling it and scheduling fresh timer 1, because the
metadata branch only reschedules when text content is buffered. -/
theorem c5_counterexample :
    (handleEvent (Event.messageUpdated ⟨"m1", "s1", "assistant", none, none, none, none, none⟩)
        (handleEvent (Event.partTool "m1" "s1" none none none none) initState)).pending
      = (handleEvent (Event.partTool "m1" "s1" none none none none) initState).pending ∧
    (handleEvent (Event.messageUpdated ⟨"m1", "s1", "assistant", none, none, none, none, none⟩)
        (handleEvent (Event.partTool "m1" "s1" none none none none) initState)).nextTimerId
      = (handleEvent (Event.partTool "m1" "s1" none none none none) initState).nextTimerId ∧
    pendingFor "m1" (handleEvent (Event.messageUpdated ⟨"m1", "s1", "assistant", none, none, none, none, none⟩)
        (handleEvent (Event.partTool "m1" "s1" none none none none) initState)).pending
      = some ⟨"m1", 0, DEBOUNCE_MS⟩ ∧
    ¬ (pendingFor "m1" (handleEvent (Event.messageUpdated ⟨"m1", "s1", "assistant", none, none, none, none, none⟩)
        (handleEvent (Event.partTool "m1" "s1" none none none none) initState)).pending
      = some ⟨"m1", (handleEvent (Event.partTool "m1" "s1" none none none none) initState).nextTimerId,
          DEBOUNCE_MS⟩) := by
  refine ⟨by decide, by decide, by decide, by decide⟩

/-- Witness for the amended C5 at concrete inputs: a text event arms a fresh
timer; a complete metadata event reschedules over a buffered text and not
over an empty buffer; the reachable-state bound; and a two-event burst
coalesces to one attempt at expiry. -/
theorem c5_debounce_amended_witness :
    (isSchedEventFor "m1" (Event.partText "m1" "s1" (some "a")) = true ∧
      pendingFor "m1" (handleEvent (Event.partText "m1" "s1" (some "a")) initState).pending
        = some ⟨"m1", initState.nextTimerId, DEBOUNCE_MS⟩ ∧
      (handleEvent (Event.partText "m1" "s1" (some "a")) initState).nextTimerId
        = initState.nextTimerId + 1) ∧
    ((alookup "m1" (handleEvent (Event.partText "m1" "s1" (some "a")) initState).messagePartsText).isSome = true ∧
      pendingFor "m1" (handleEvent
          (Event.messageUpdated ⟨"m1", "s1", "user", none, none, none, none, none⟩)
          (handleEvent (Event.partText "m1" "s1" (some "a")) initState)).pending
        = some ⟨"m1", (handleEvent (Event.partText "m1" "s1" (some "a")) initState).nextTimerId,
            DEBOUNCE_MS⟩) ∧
    ((alookup "m1" initState.messagePartsText).isSome = false ∧
      (handleEvent (Event.messageUpdated ⟨"m1", "s1", "user", none, none, none, none, none⟩)
          initState).pending = initState.pending) ∧
    pendCount "m1" (runA [Act.ev (Event.partText "m1" "s1" (some "a"))] initState).pending ≤ 1 ∧
    (([Event.partText "m1" "s1" (some "a"),
       Event.partTool "m1" "s1" none none none none] : List Event) ≠ [] ∧
     (∀ e ∈ ([Event.partText "m1" "s1" (some "a"),
        Event.partTool "m1" "s1" none none none none] : List Event),
        isSchedEventFor "m1" e = true) ∧
     (pendCount "m1" (runEvents [Event.partText "m1" "s1" (some "a"),
        Event.partTool "m1" "s1" none none none none] initState).pending = 1 ∧
      (runEvents [Event.partText "m1" "s1" (some "a"),
        Event.partTool "m1" "s1" none none none none] initState).attempts
        = initState.attempts ∧
      (fireTimer "m1" (runEvents [Event.partText "m1" "s1" (some "a"),
        Event.partTool "m1" "s1" none none none none] initState)).attempts
        = initState.attempts ++ ["m1"] ∧
      pendingFor "m1" (fireTimer "m1" (runEvents [Event.partText "m1" "s1" (some "a"),
        Event.partTool "m1" "s1" none none none none] initState)).pending = none)) ∧
    DEBOUNCE_MS = 800 :=
  ⟨⟨by decide, c5_debounce_amended.1 initState (Event.partText "m1" "s1" (some "a")) "m1" (by decide)⟩,
   ⟨by decide, (c5_debounce_amended.2.1
      (handleEvent (Event.partText "m1" "s1" (some "a")) initState)
      ⟨"m1", "s1", "user", none, none, none, none, none⟩
      (by decide) (by decide) (by decide)).1 (by decide)⟩,
   ⟨by decide, (c5_debounce_amended.2.1 initState
      ⟨"m1", "s1", "user", none, none, none, none, none⟩
      (by decide) (by decide) (by decide)).2 (by decide)⟩,
   c5_debounce_amended.2.2.1 [Act.ev (Event.partText "m1" "s1" (some "a"))] "m1",
   ⟨List.cons_ne_nil _ _, by decide,
    c5_debounce_amended.2.2.2.1 initState "m1"
      [Event.partText "m1" "s1" (some "a"),
       Event.partTool "m1" "s1" none none none none]
      (List.cons_ne_nil _ _) (by decide)⟩,
   c5_debounce_amended.2.2.2.2⟩
